import Mathlib

/-!
# KML viewer: geometry analysis (`src/App.jsx`)

A shallow embedding of `calculateLineLength`, `generateSummary`,
`generateDetailedData` and of the "Total Length" cell of the detailed table.

Modelling choices.

* JavaScript values that can sit under `geometry.coordinates` are the type `Val`:
  `undefined` (also standing for `null` and an absent property), a number, or an
  array of values.
* A Number is a rational that is an IEEE-754 binary64 value.  `length += d` is
  `addNumber`: the exact sum rounded to the nearest double, a tie going to the even
  significand (`toDouble`).  Infinities and NaN are not modelled: the exponent is
  unbounded above.  `Math.round x` is `⌊x + 1/2⌋`, which is exact on doubles.
* `count` and `totalLength` hold integers; `count++` and `totalLength += n` are exact
  on integers below 2^53 and are modelled on `Nat` and `ℤ`.
* `L.latLng(lat1, lon1).distanceTo(L.latLng(lat2, lon2))` is Leaflet code and is a
  parameter (`Leaflet`): a total distance on numeric arguments and an unspecified
  outcome on anything else.
* The objects `counts` and `details` are created as `{}`: a list of own key/value
  pairs in insertion order, on top of the properties every object inherits from
  `Object.prototype` (`objectPrototypeKeys`).  A read `obj[key]` is `Dict.lookup`; a
  write to a property of an inherited object leaves `obj` as it is (the property it
  sets on the shared object, `count`, reads as NaN, which both functions treat like
  `undefined`).  `Object.entries` lists integer-like keys first; no statement below
  depends on the place of a key.
* A thrown exception is an `Except.error`; `setSummary` / `setDetailedData` publish
  the returned value.
-/

namespace KmlParser

/-- Rounding of a rational to an integer, to nearest, a tie going to the even one. -/
def roundHalfEven (x : ℚ) : ℤ :=
  if x - ⌊x⌋ < 1 / 2 then ⌊x⌋
  else if 1 / 2 < x - ⌊x⌋ then ⌊x⌋ + 1
  else if ⌊x⌋ % 2 = 0 then ⌊x⌋ else ⌊x⌋ + 1

/-- The binary exponent that fixes the spacing of the doubles around `x`:
`⌊log₂ |x|⌋`, and `-1022` in the subnormal range. -/
def binade (x : ℚ) : ℤ := max (Int.log 2 |x|) (-1022)

/-- The nearest IEEE-754 binary64 value: 53 significant bits, ties to even. -/
def toDouble (x : ℚ) : ℚ :=
  roundHalfEven (x / 2 ^ (binade x - 52)) * 2 ^ (binade x - 52)

/-- The rationals that are binary64 values. -/
def isDouble (x : ℚ) : Prop := toDouble x = x

/-- The addition `a + b` of two Numbers. -/
def addNumber (a b : ℚ) : ℚ := toDouble (a + b)

/-- A JavaScript value as found under `geometry.coordinates`. -/
inductive Val where
  | undefined : Val
  | num (x : ℚ) : Val
  | arr (xs : List Val) : Val

/-- A thrown JavaScript exception. -/
inductive Error where
  | typeError : Error
  | libraryError : Error
  deriving DecidableEq, Repr

/-- The part of Leaflet used by `calculateLineLength`:
`L.latLng(lat1, lon1).distanceTo(L.latLng(lat2, lon2))`. -/
structure Leaflet where
  /-- The distance in metres when the four arguments are numbers,
  in the order `lat1 lon1 lat2 lon2`. -/
  distance : ℚ → ℚ → ℚ → ℚ → ℚ
  /-- The outcome when some argument is not a number. -/
  invalid : Val → Val → Val → Val → Except Error ℚ

/-- `L.latLng(lat1, lon1).distanceTo(L.latLng(lat2, lon2))`. -/
def Leaflet.distanceTo (L : Leaflet) : Val → Val → Val → Val → Except Error ℚ
  | .num lat1, .num lon1, .num lat2, .num lon2 => .ok (L.distance lat1 lon1 lat2 lon2)
  | lat1, lon1, lat2, lon2 => L.invalid lat1 lon1 lat2 lon2

/-- `Math.round`: the nearest integer, a tie going up. -/
def Math.round (x : ℚ) : ℤ := ⌊x + 1 / 2⌋

/-- `xs[i]` on an array: the element, or `undefined` past the end. -/
def Val.index (xs : List Val) (i : Nat) : Val := xs.getD i .undefined

/-- The array destructuring `const [a, b] = v`: a `TypeError` unless `v` is an array;
positions the array does not have are `undefined`. -/
def destructure2 : Val → Except Error (Val × Val)
  | .arr ys => .ok (Val.index ys 0, Val.index ys 1)
  | _ => .error .typeError

/-- The `for (let i = 1; i < coordinates.length; i++)` loop of `calculateLineLength`
on an array, from index `i` with the running `length`; `fuel` bounds the number of
iterations. -/
def calculateLineLength.loop (L : Leaflet) (coordinates : List Val) :
    Nat → Nat → ℚ → Except Error ℚ
  | 0, _, length => .ok length
  | fuel + 1, i, length =>
    if i < coordinates.length then do
      let (lon1, lat1) ← destructure2 (Val.index coordinates (i - 1))
      let (lon2, lat2) ← destructure2 (Val.index coordinates i)
      let d ← L.distanceTo lat1 lon1 lat2 lon2
      calculateLineLength.loop L coordinates fuel (i + 1) (addNumber length d)
    else .ok length

/-- `calculateLineLength(coordinates)`.  Reading `.length` of `undefined` throws; a
number has no `length`, so the loop does not run; on an array the loop runs with as
much fuel as the array has elements. -/
def calculateLineLength (L : Leaflet) : Val → Except Error ℤ
  | .undefined => .error .typeError
  | .num _ => .ok (Math.round 0)
  | .arr coordinates => do
    let length ← calculateLineLength.loop L coordinates coordinates.length 1 0
    pure (Math.round length)

/-- The `geometry` of a feature: its `type` tag and whatever is under `coordinates`. -/
structure Geometry where
  type : String
  coordinates : Val

/-- A GeoJSON feature (its properties are never read). -/
structure Feature where
  geometry : Geometry

/-- A GeoJSON FeatureCollection. -/
structure FeatureCollection where
  features : List Feature

/-- The own properties of an object created as `{}`: string keys in insertion order. -/
abbrev Dict (α : Type) := List (String × α)

/-- The own property `key` of an object, `none` when it has no such own property. -/
def Dict.get {α : Type} (obj : Dict α) (key : String) : Option α :=
  match obj with
  | [] => none
  | (k, v) :: rest => if k = key then some v else Dict.get rest key

/-- The creation or overwriting of the own property `key`: overwrite in place, or add
the key at the end. -/
def Dict.set {α : Type} (obj : Dict α) (key : String) (value : α) : Dict α :=
  match obj with
  | [] => [(key, value)]
  | (k, v) :: rest =>
    if k = key then (k, value) :: rest else (k, v) :: Dict.set rest key value

/-- An update of the value of the own property `key`; without such an own property
the object is unchanged. -/
def Dict.modify {α : Type} (obj : Dict α) (key : String) (f : α → α) : Dict α :=
  match obj with
  | [] => []
  | (k, v) :: rest =>
    if k = key then (k, f v) :: rest else (k, v) :: Dict.modify rest key f

/-- The own keys of an object. -/
def Dict.keys {α : Type} (obj : Dict α) : List String := obj.map Prod.fst

/-- The property names every object inherits from `Object.prototype`: eleven
functions and the accessor `__proto__`. -/
def objectPrototypeKeys : List String :=
  ["constructor", "__defineGetter__", "__defineSetter__", "hasOwnProperty",
   "__lookupGetter__", "__lookupSetter__", "isPrototypeOf", "propertyIsEnumerable",
   "toString", "valueOf", "__proto__", "toLocaleString"]

/-- What a read `obj[key]` finds. -/
inductive Lookup (α : Type) where
  | own (value : α) : Lookup α
  | inherited : Lookup α
  | undefined : Lookup α

/-- The read `obj[key]`: the own property, else the function or object inherited from
`Object.prototype`, else `undefined`. -/
def Dict.lookup {α : Type} (obj : Dict α) (key : String) : Lookup α :=
  match Dict.get obj key with
  | some v => .own v
  | none => if key ∈ objectPrototypeKeys then .inherited else .undefined

/-- The assignment `obj[key] = value` of a number or a string: the setter of
`__proto__` ignores such a value, any other key becomes an own property. -/
def Dict.assign {α : Type} (obj : Dict α) (key : String) (value : α) : Dict α :=
  if key = "__proto__" then obj else Dict.set obj key value

/-- A value stored in `counts`: a number, or the string that `+ 1` makes of a function,
an object or a string. -/
inductive CountVal where
  | number (n : Nat) : CountVal
  | string : CountVal
  deriving DecidableEq, Repr

/-- The body of the `forEach` of `generateSummary`:
`counts[type] = (counts[type] || 0) + 1`. -/
def generateSummary.step (counts : Dict CountVal) (feature : Feature) : Dict CountVal :=
  let type := feature.geometry.type
  let value :=
    match Dict.lookup counts type with
    | .own (.number n) => CountVal.number (n + 1)
    | .own .string => CountVal.string
    | .inherited => CountVal.string
    | .undefined => CountVal.number (0 + 1)
  Dict.assign counts type value

/-- `generateSummary(geoJson)`: the value handed to `setSummary`. -/
def generateSummary (geoJson : FeatureCollection) : Dict CountVal :=
  geoJson.features.foldl generateSummary.step []

/-- An entry `{ count, totalLength }` of `details`. -/
structure Entry where
  count : Nat
  totalLength : ℤ
  deriving DecidableEq, Repr

/-- `details[type].totalLength += n`; on an inherited object the write leaves
`details` as it is. -/
def addLength (details : Dict Entry) (type : String) (n : ℤ) : Dict Entry :=
  Dict.modify details type (fun e => { e with totalLength := e.totalLength + n })

/-- `coords.forEach(line => { details[type].totalLength += calculateLineLength(line) })`:
calling `forEach` on anything but an array throws. -/
def forEachLine (L : Leaflet) (type : String) : Val → Dict Entry → Except Error (Dict Entry)
  | .arr lines, details =>
    lines.foldlM
      (fun details line => do
        let n ← calculateLineLength L line
        pure (addLength details type n))
      details
  | _, _ => .error .typeError

/-- The body of the `forEach` of `generateDetailedData`.  `!details[type]` holds only
when the read finds nothing, own or inherited; `details[type].count++` on an inherited
object leaves `details` as it is. -/
def generateDetailedData.step (L : Leaflet) (details : Dict Entry) (feature : Feature) :
    Except Error (Dict Entry) :=
  let type := feature.geometry.type
  let details :=
    match Dict.lookup details type with
    | .undefined => Dict.set details type ⟨0, 0⟩
    | _ => details
  let details := Dict.modify details type (fun e => { e with count := e.count + 1 })
  if type ∈ ["LineString", "MultiLineString", "Polygon"] then
    let coords := feature.geometry.coordinates
    if type = "LineString" then do
      let n ← calculateLineLength L coords
      pure (addLength details type n)
    else if type = "MultiLineString" ∨ type = "Polygon" then
      forEachLine L type coords details
    else pure details
  else pure details

/-- `generateDetailedData(geoJson)`: the value handed to `setDetailedData`, or the
exception that leaves the function before `setDetailedData` is reached. -/
def generateDetailedData (L : Leaflet) (geoJson : FeatureCollection) :
    Except Error (Dict Entry) :=
  geoJson.features.foldlM (generateDetailedData.step L) []

/-- The "Total Length (meters)" cell of the detailed table:
`data.totalLength > 0 ? data.totalLength.toLocaleString() : "N/A"`; the
locale-dependent rendering `toLocaleString` is a parameter. -/
def totalLengthCell (toLocaleString : ℤ → String) (data : Entry) : String :=
  if data.totalLength > 0 then toLocaleString data.totalLength else "N/A"

/-! ## Well-formed input and the notions of the specification -/

/-- A coordinate of the data model: a pair, longitude first. -/
structure Coordinate where
  lon : ℚ
  lat : ℚ

/-- The JavaScript value of a coordinate: the array `[lon, lat]`. -/
def Coordinate.toVal (c : Coordinate) : Val := .arr [.num c.lon, .num c.lat]

/-- The JavaScript value of a coordinate sequence (a line or a ring). -/
def lineVal (cs : List Coordinate) : Val := .arr (cs.map Coordinate.toVal)

/-- The JavaScript value of a sequence of lines or rings. -/
def linesVal (ls : List (List Coordinate)) : Val := .arr (ls.map lineVal)

/-- The great-circle distance between two coordinates, as Leaflet computes it. -/
def Leaflet.dist (L : Leaflet) (p q : Coordinate) : ℚ :=
  L.distance p.lat p.lon q.lat q.lon

/-- The distances between each consecutive pair of points, in index order. -/
def segments (L : Leaflet) (cs : List Coordinate) : List ℚ :=
  List.zipWith L.dist cs cs.tail

/-- The exact sum of the distances between each consecutive pair of points. -/
def pairSum (L : Leaflet) (cs : List Coordinate) : ℚ := (segments L cs).sum

/-- The reference definition of `computeLineLength` (specification, section 4.1):
the rounding of the sum of the distances between consecutive points. -/
def referenceLineLength (L : Leaflet) (cs : List Coordinate) : ℤ :=
  Math.round (pairSum L cs)

/-- The distances between consecutive points added one after the other in index
order, each addition rounded to a double. -/
def doubleSum (L : Leaflet) (cs : List Coordinate) : ℚ :=
  (segments L cs).foldl addNumber 0

/-- The value of `computeLineLength` on a coordinate sequence: the rounding of the
distances accumulated in doubles. -/
def computeLineLength (L : Leaflet) (cs : List Coordinate) : ℤ :=
  Math.round (doubleSum L cs)

/-- The number of features whose geometry type is `t`. -/
def typeCount (fs : List Feature) (t : String) : Nat :=
  (fs.filter (fun f => f.geometry.type = t)).length

/-- The sum of `calculateLineLength(line)` over every element of an array, each line
rounded on its own; the first exception met is the result. -/
def sumLineLengths (L : Leaflet) : List Val → Except Error ℤ
  | [] => .ok 0
  | line :: rest => do
    let n ← calculateLineLength L line
    let m ← sumLineLengths L rest
    pure (n + m)

/-- The length one feature contributes, as the specification words it: a LineString
contributes `calculateLineLength(coordinates)`, a MultiLineString or a Polygon the sum
of `calculateLineLength(line)` over every element of `coordinates`, any other type 0. -/
def lengthContribution (L : Leaflet) (feature : Feature) : Except Error ℤ :=
  if feature.geometry.type = "LineString" then
    calculateLineLength L feature.geometry.coordinates
  else if feature.geometry.type = "MultiLineString" ∨ feature.geometry.type = "Polygon" then
    match feature.geometry.coordinates with
    | .arr lines => sumLineLengths L lines
    | _ => .error .typeError
  else .ok 0

/-- The sum of the contributions `c` of the features whose geometry type is `t`. -/
def typeLength (c : Feature → ℤ) (fs : List Feature) (t : String) : ℤ :=
  ((fs.filter (fun f => f.geometry.type = t)).map c).sum

/-- What one feature of type `type` contributing `n` does to `details`: one more
count and `n` more metres under `type`, and nothing when `type` names an inherited
property. -/
def record (details : Dict Entry) (type : String) (n : ℤ) : Dict Entry :=
  match Dict.lookup details type with
  | .inherited => details
  | _ =>
    Dict.set details type
      ⟨((Dict.get details type).map Entry.count).getD 0 + 1,
       ((Dict.get details type).map Entry.totalLength).getD 0 + n⟩

/-- The features recorded one after the other, with contributions `c`. -/
def recordAll (c : Feature → ℤ) (details : Dict Entry) (fs : List Feature) : Dict Entry :=
  fs.foldl (fun d f => record d f.geometry.type (c f)) details

/-- The counts of `details`, key by key, as values of `counts`. -/
def detailCounts (details : Dict Entry) : Dict CountVal :=
  details.map (fun p => (p.1, CountVal.number p.2.count))

/-- The values of the own properties of an object. -/
def Dict.values {α : Type} (obj : Dict α) : List α := obj.map Prod.snd

/-- The geometry types for which `generateDetailedData` measures a length. -/
def lineLike : List String := ["LineString", "MultiLineString", "Polygon"]

/-- `details[t].totalLength`, 0 when `details` has no key `t`. -/
def totalLengthOf (details : Dict Entry) (t : String) : ℤ :=
  ((Dict.get details t).map Entry.totalLength).getD 0

/-- A LineString whose `coordinates` is the empty array, or a MultiLineString or
Polygon whose `coordinates` is an array of empty arrays (possibly none). -/
def emptyCoordinates (feature : Feature) : Bool :=
  match feature.geometry.coordinates with
  | .arr lines =>
    if feature.geometry.type = "LineString" then lines.isEmpty
    else if feature.geometry.type = "MultiLineString" ∨ feature.geometry.type = "Polygon" then
      lines.all (fun line => match line with
        | .arr [] => true
        | _ => false)
    else false
  | _ => false

/-- A LineString, MultiLineString or Polygon without a `coordinates` array, or a
MultiLineString or Polygon one of whose lines or rings is missing. -/
def missingCoordinates (feature : Feature) : Prop :=
  (feature.geometry.type ∈ lineLike ∧ feature.geometry.coordinates = .undefined) ∨
  ((feature.geometry.type = "MultiLineString" ∨ feature.geometry.type = "Polygon") ∧
    ∃ lines, feature.geometry.coordinates = .arr lines ∧ Val.undefined ∈ lines)

/-! ## Data of the examples -/

/-- A stand-in for Leaflet used to evaluate examples: symmetric, non-negative,
double-valued, and 111195 metres for one degree of latitude. -/
def sampleLeaflet : Leaflet where
  distance lat1 lon1 lat2 lon2 :=
    toDouble (111195 * ((lat2 - lat1) ^ 2 + (lon2 - lon1) ^ 2))
  invalid _ _ _ _ := .error .libraryError

/-- A stand-in for `toLocaleString` used to evaluate examples. -/
def sampleLocale (n : ℤ) : String := toString n

/-- An outer ring of four points used in the examples. -/
def sampleOuter : List Coordinate := [⟨0, 0⟩, ⟨0, 1⟩, ⟨1, 1⟩, ⟨0, 0⟩]

/-- A second ring (a hole) used in the examples. -/
def sampleHole : List Coordinate := [⟨0, 0⟩, ⟨0, 1⟩, ⟨0, 0⟩]

/-- A small collection: a LineString, a Point and a Polygon with a hole. -/
def sampleFeatures : List Feature :=
  [⟨⟨"LineString", lineVal [⟨0, 0⟩, ⟨0, 1⟩]⟩⟩,
   ⟨⟨"Point", .arr [.num 2, .num 3]⟩⟩,
   ⟨⟨"Polygon", linesVal [sampleOuter, sampleHole]⟩⟩]

/-- The contributions of the features of `sampleFeatures` under `sampleLeaflet`. -/
def sampleContribution (f : Feature) : ℤ :=
  if f.geometry.type = "LineString" then 111195
  else if f.geometry.type = "Polygon" then 667170
  else 0

/-- A collection with empty coordinate arrays: an empty LineString, a Polygon whose
only ring is empty, a MultiLineString without lines, and a LineString of two points. -/
def sampleEmptyFeatures : List Feature :=
  [⟨⟨"LineString", .arr []⟩⟩,
   ⟨⟨"Polygon", .arr [.arr []]⟩⟩,
   ⟨⟨"MultiLineString", .arr []⟩⟩,
   ⟨⟨"LineString", lineVal [⟨0, 0⟩, ⟨0, 1⟩]⟩⟩]

/-- The line `[[0,0],[1,0.5],[0.75,0.5],[4,1.5930505347988941]]`. -/
def sampleTrack : List Coordinate :=
  [⟨0, 0⟩, ⟨1, 1 / 2⟩, ⟨3 / 4, 1 / 2⟩, ⟨4, 1.5930505347988941⟩]

/-- A stand-in for Leaflet on `sampleTrack`, a function of the difference of the
longitudes only: the three segments of the track get the doubles
124318.44499509814, 27797.673168938854 and 381212.38183596294, which are the
haversine distances of these segments on a sphere of radius 6371000 to the last bit
or within one unit of it. -/
def trackLeaflet : Leaflet where
  distance _ lon1 _ lon2 :=
    if |lon2 - lon1| = 1 then 4271549244348171 / 34359738368
    else if |lon2 - lon1| = 1 / 4 then 1910241554647825 / 68719476736
    else if |lon2 - lon1| = 13 / 4 then 6549178851262901 / 17179869184
    else 0
  invalid _ _ _ _ := .error .libraryError

/-! ## Rounding to a double -/

theorem roundHalfEven_intCast (n : ℤ) : roundHalfEven (n : ℚ) = n := by
  simp [roundHalfEven]

theorem floor_le_roundHalfEven (x : ℚ) : ⌊x⌋ ≤ roundHalfEven x := by
  unfold roundHalfEven
  split_ifs <;> omega

theorem roundHalfEven_le_floor_add_one (x : ℚ) : roundHalfEven x ≤ ⌊x⌋ + 1 := by
  unfold roundHalfEven
  split_ifs <;> omega

theorem roundHalfEven_mono {x y : ℚ} (h : x ≤ y) : roundHalfEven x ≤ roundHalfEven y := by
  have hf : ⌊x⌋ ≤ ⌊y⌋ := Int.floor_mono h
  rcases lt_or_eq_of_le hf with hlt | heq
  · calc roundHalfEven x ≤ ⌊x⌋ + 1 := roundHalfEven_le_floor_add_one x
      _ ≤ ⌊y⌋ := hlt
      _ ≤ roundHalfEven y := floor_le_roundHalfEven y
  · unfold roundHalfEven
    rw [heq]
    have hxy : x - (⌊y⌋ : ℚ) ≤ y - (⌊y⌋ : ℚ) := by linarith
    split_ifs <;> first | omega | linarith

theorem roundHalfEven_of_lt (q : ℚ) (f : ℤ) (h1 : (f : ℚ) ≤ q) (h2 : q < f + 1 / 2) :
    roundHalfEven q = f := by
  have hf : ⌊q⌋ = f := by
    rw [Int.floor_eq_iff]
    constructor <;> linarith
  unfold roundHalfEven
  rw [hf]
  have : q - (f : ℚ) < 1 / 2 := by linarith
  rw [if_pos this]

theorem roundHalfEven_of_gt (q : ℚ) (f : ℤ) (h1 : (f : ℚ) + 1 / 2 < q) (h2 : q < f + 1) :
    roundHalfEven q = f + 1 := by
  have hf : ⌊q⌋ = f := by
    rw [Int.floor_eq_iff]
    constructor <;> linarith
  unfold roundHalfEven
  rw [hf]
  have h3 : ¬ q - (f : ℚ) < 1 / 2 := by linarith
  have h4 : 1 / 2 < q - (f : ℚ) := by linarith
  rw [if_neg h3, if_pos h4]

theorem roundHalfEven_tie (f : ℤ) :
    roundHalfEven ((f : ℚ) + 1 / 2) = if f % 2 = 0 then f else f + 1 := by
  have hf : ⌊(f : ℚ) + 1 / 2⌋ = f := by
    rw [Int.floor_eq_iff]
    constructor <;> norm_num
  unfold roundHalfEven
  rw [hf]
  norm_num

theorem binade_eq (x : ℚ) (e : ℤ) (he : -1022 ≤ e) (hlo : (2 : ℚ) ^ e ≤ |x|)
    (hhi : |x| < (2 : ℚ) ^ (e + 1)) : binade x = e := by
  have hpos : 0 < |x| := lt_of_lt_of_le (by positivity) hlo
  have h1 : e ≤ Int.log 2 |x| := by
    have := (Int.zpow_le_iff_le_log (b := 2) (by norm_num) hpos).mp (by exact_mod_cast hlo)
    exact this
  have h2 : Int.log 2 |x| < e + 1 := by
    have := (Int.lt_zpow_iff_log_lt (b := 2) (by norm_num) hpos).mp (by exact_mod_cast hhi)
    exact this
  unfold binade
  omega

theorem toDouble_of_binade (x : ℚ) (e : ℤ) (he : -1022 ≤ e) (hlo : (2 : ℚ) ^ e ≤ |x|)
    (hhi : |x| < (2 : ℚ) ^ (e + 1)) :
    toDouble x = roundHalfEven (x / 2 ^ (e - 52)) * 2 ^ (e - 52) := by
  rw [toDouble, binade_eq x e he hlo hhi]

theorem toDouble_zero : toDouble 0 = 0 := by
  simp [toDouble, roundHalfEven]

theorem two_zpow_succ (e : ℤ) : (2 : ℚ) ^ (e + 1) = 2 ^ (53 : ℕ) * 2 ^ (e - 52) := by
  have h : e + 1 = (53 : ℤ) + (e - 52) := by ring
  rw [h, zpow_add₀ (by norm_num : (2 : ℚ) ≠ 0)]
  norm_num

theorem two_zpow_self (e : ℤ) : (2 : ℚ) ^ e = 2 ^ (52 : ℕ) * 2 ^ (e - 52) := by
  have h : e = (52 : ℤ) + (e - 52) := by ring
  nth_rewrite 1 [h]
  rw [zpow_add₀ (by norm_num : (2 : ℚ) ≠ 0)]
  norm_num

theorem binade_spec (x : ℚ) (hx : 0 < x) :
    -1022 ≤ binade x ∧ x < (2 : ℚ) ^ (binade x + 1) ∧
      (-1022 < binade x → (2 : ℚ) ^ binade x ≤ x) := by
  have habs : |x| = x := abs_of_pos hx
  unfold binade
  rw [habs]
  refine ⟨le_max_right _ _, ?_, ?_⟩
  · have h1 : x < ((2 : ℕ) : ℚ) ^ (Int.log 2 x + 1) := Int.lt_zpow_succ_log_self (by norm_num) x
    have h2 : ((2 : ℕ) : ℚ) ^ (Int.log 2 x + 1) ≤ ((2 : ℕ) : ℚ) ^ (max (Int.log 2 x) (-1022) + 1) :=
      zpow_le_zpow_right₀ (by norm_num) (by omega)
    have := lt_of_lt_of_le h1 h2
    exact_mod_cast this
  · intro h
    have hmax : max (Int.log 2 x) (-1022) = Int.log 2 x := by omega
    rw [hmax]
    have := Int.zpow_log_le_self (b := 2) (by norm_num) hx
    exact_mod_cast this

theorem binade_eq_of (y : ℚ) (e : ℤ) (hy : 0 < y) (he : -1022 ≤ e)
    (hhi : y < (2 : ℚ) ^ (e + 1)) (hlo : -1022 < e → (2 : ℚ) ^ e ≤ y) : binade y = e := by
  have habs : |y| = y := abs_of_pos hy
  have h2 : Int.log 2 y < e + 1 :=
    (Int.lt_zpow_iff_log_lt (b := 2) (by norm_num) hy).mp (by exact_mod_cast hhi)
  unfold binade
  rw [habs]
  rcases eq_or_lt_of_le he with h | h
  · omega
  · have h1 : e ≤ Int.log 2 y :=
      (Int.zpow_le_iff_le_log (b := 2) (by norm_num) hy).mp (by exact_mod_cast hlo h)
    omega

theorem binade_mono {x y : ℚ} (hx : 0 < x) (h : x ≤ y) : binade x ≤ binade y := by
  have hy : 0 < y := lt_of_lt_of_le hx h
  unfold binade
  rw [abs_of_pos hx, abs_of_pos hy]
  exact max_le_max (Int.log_mono_right hx h) le_rfl

/-- The integer significand chosen by `toDouble`. -/
theorem significand_bounds (x : ℚ) (hx : 0 < x) :
    0 ≤ roundHalfEven (x / 2 ^ (binade x - 52)) ∧
    roundHalfEven (x / 2 ^ (binade x - 52)) ≤ 2 ^ 53 ∧
    (-1022 < binade x → 2 ^ 52 ≤ roundHalfEven (x / 2 ^ (binade x - 52))) := by
  obtain ⟨_, hhi, hlo⟩ := binade_spec x hx
  have hu : (0 : ℚ) < 2 ^ (binade x - 52) := by positivity
  refine ⟨?_, ?_, ?_⟩
  · have := roundHalfEven_mono (x := 0) (y := x / 2 ^ (binade x - 52)) (by positivity)
    simpa [roundHalfEven] using this
  · have hq : x / 2 ^ (binade x - 52) ≤ ((2 ^ 53 : ℤ) : ℚ) := by
      rw [div_le_iff₀ hu]
      rw [two_zpow_succ] at hhi
      push_cast
      exact le_of_lt hhi
    have := roundHalfEven_mono hq
    rwa [roundHalfEven_intCast] at this
  · intro h
    have hq : ((2 ^ 52 : ℤ) : ℚ) ≤ x / 2 ^ (binade x - 52) := by
      rw [le_div_iff₀ hu]
      have := hlo h
      rw [two_zpow_self] at this
      push_cast
      exact this
    have := roundHalfEven_mono hq
    rwa [roundHalfEven_intCast] at this

theorem toDouble_nonneg {x : ℚ} (hx : 0 ≤ x) : 0 ≤ toDouble x := by
  rcases eq_or_lt_of_le hx with h | h
  · rw [← h, toDouble_zero]
  · unfold toDouble
    have := (significand_bounds x h).1
    have hn : (0 : ℚ) ≤ roundHalfEven (x / 2 ^ (binade x - 52)) := by exact_mod_cast this
    positivity

theorem toDouble_mono {x y : ℚ} (hx : 0 ≤ x) (h : x ≤ y) : toDouble x ≤ toDouble y := by
  rcases eq_or_lt_of_le hx with h0 | hpos
  · rw [← h0, toDouble_zero]
    exact toDouble_nonneg (le_trans hx h)
  · have hy : 0 < y := lt_of_lt_of_le hpos h
    rcases eq_or_lt_of_le (binade_mono hpos h) with heq | hlt
    · unfold toDouble
      rw [heq]
      have hu : (0 : ℚ) < 2 ^ (binade y - 52) := by positivity
      have hq : x / 2 ^ (binade y - 52) ≤ y / 2 ^ (binade y - 52) :=
        div_le_div_of_nonneg_right h (le_of_lt hu)
      have := roundHalfEven_mono hq
      have hc : (roundHalfEven (x / 2 ^ (binade y - 52)) : ℚ)
          ≤ roundHalfEven (y / 2 ^ (binade y - 52)) := by exact_mod_cast this
      exact mul_le_mul_of_nonneg_right hc (le_of_lt hu)
    · have hyn : -1022 < binade y := lt_of_le_of_lt (binade_spec x hpos).1 hlt
      have h1 : toDouble x ≤ (2 : ℚ) ^ (binade x + 1) := by
        unfold toDouble
        rw [two_zpow_succ]
        have := (significand_bounds x hpos).2.1
        have hc : (roundHalfEven (x / 2 ^ (binade x - 52)) : ℚ) ≤ 2 ^ (53 : ℕ) := by
          exact_mod_cast this
        exact mul_le_mul_of_nonneg_right hc (by positivity)
      have h2 : (2 : ℚ) ^ (binade x + 1) ≤ 2 ^ binade y :=
        zpow_le_zpow_right₀ (by norm_num) (by omega)
      have h3 : (2 : ℚ) ^ binade y ≤ toDouble y := by
        unfold toDouble
        rw [two_zpow_self (binade y)]
        have := (significand_bounds y hy).2.2 hyn
        have hc : (2 : ℚ) ^ (52 : ℕ) ≤ roundHalfEven (y / 2 ^ (binade y - 52)) := by
          exact_mod_cast this
        have hu : (0 : ℚ) ≤ 2 ^ (binade y - 52 - 52 + 52) := by positivity
        have hs : binade y - 52 = binade y - 52 := rfl
        exact mul_le_mul_of_nonneg_right hc (by positivity)
      linarith

theorem toDouble_idem {x : ℚ} (hx : 0 ≤ x) : toDouble (toDouble x) = toDouble x := by
  rcases eq_or_lt_of_le hx with h0 | hpos
  · rw [← h0, toDouble_zero, toDouble_zero]
  · obtain ⟨he, _, _⟩ := binade_spec x hpos
    obtain ⟨hn0, hn53, hn52⟩ := significand_bounds x hpos
    have hu : (0 : ℚ) < 2 ^ (binade x - 52) := by positivity
    set n := roundHalfEven (x / 2 ^ (binade x - 52)) with hn
    have hy : toDouble x = n * 2 ^ (binade x - 52) := rfl
    rcases eq_or_lt_of_le hn0 with hz | hnpos
    · rw [hy, ← hz]
      simp [toDouble_zero]
    · have hypos : 0 < toDouble x := by
        rw [hy]
        have : (0 : ℚ) < n := by exact_mod_cast hnpos
        positivity
      rcases eq_or_lt_of_le hn53 with h53 | hlt53
      · have hval : toDouble x = (2 : ℚ) ^ (binade x + 1) := by
          rw [hy, h53, two_zpow_succ]
          norm_num
        have hb : binade (toDouble x) = binade x + 1 := by
          apply binade_eq_of _ _ hypos (by omega)
          · rw [hval]
            exact zpow_lt_zpow_right₀ (by norm_num) (by omega)
          · intro _
            rw [hval]
        have hq : toDouble x / 2 ^ (binade x + 1 - 52) = ((2 ^ 52 : ℤ) : ℚ) := by
          rw [hval, two_zpow_self (binade x + 1)]
          have : (0 : ℚ) < 2 ^ (binade x + 1 - 52) := by positivity
          field_simp
        nth_rewrite 1 [toDouble]
        rw [hb, hq, roundHalfEven_intCast, hval, two_zpow_self (binade x + 1)]
        norm_num
      · have hb : binade (toDouble x) = binade x := by
          apply binade_eq_of _ _ hypos he
          · rw [hy, two_zpow_succ]
            have : (n : ℚ) < 2 ^ (53 : ℕ) := by exact_mod_cast hlt53
            exact mul_lt_mul_of_pos_right this hu
          · intro h
            rw [hy, two_zpow_self (binade x)]
            have : (2 : ℚ) ^ (52 : ℕ) ≤ n := by exact_mod_cast hn52 h
            exact mul_le_mul_of_nonneg_right this (le_of_lt hu)
        have hq : toDouble x / 2 ^ (binade x - 52) = (n : ℚ) := by
          rw [hy]
          field_simp
        nth_rewrite 1 [toDouble]
        rw [hb, hq, roundHalfEven_intCast, hy]

theorem toDouble_mul_zpow (m k : ℤ) (hm0 : 0 < m) (hm : m < 2 ^ 53) (hk : -1074 ≤ k) :
    toDouble ((m : ℚ) * 2 ^ k) = (m : ℚ) * 2 ^ k := by
  have hmq : (0 : ℚ) < m := by exact_mod_cast hm0
  have hy : (0 : ℚ) < (m : ℚ) * 2 ^ k := by positivity
  have he : binade ((m : ℚ) * 2 ^ k) - 52 ≤ k := by
    have hlt : (m : ℚ) * 2 ^ k < ((2 : ℕ) : ℚ) ^ (k + 52 + 1) := by
      have h1 : (m : ℚ) < 2 ^ (53 : ℕ) := by exact_mod_cast hm
      have h2 : (2 : ℚ) ^ (k + 52 + 1) = 2 ^ (53 : ℕ) * 2 ^ k := by
        have h : k + 52 + 1 = (53 : ℤ) + k := by ring
        rw [h, zpow_add₀ (by norm_num : (2 : ℚ) ≠ 0)]
        norm_num
      push_cast
      rw [h2]
      exact mul_lt_mul_of_pos_right h1 (by positivity)
    have hlog : Int.log 2 ((m : ℚ) * 2 ^ k) < k + 52 + 1 :=
      (Int.lt_zpow_iff_log_lt (b := 2) (by norm_num) hy).mp hlt
    unfold binade
    rw [abs_of_pos hy]
    omega
  obtain ⟨j, hj⟩ := Int.eq_ofNat_of_zero_le (sub_nonneg.mpr he)
  have hq : (m : ℚ) * 2 ^ k / 2 ^ (binade ((m : ℚ) * 2 ^ k) - 52) = ((m * 2 ^ j : ℤ) : ℚ) := by
    have hk2 : k = (j : ℤ) + (binade ((m : ℚ) * 2 ^ k) - 52) := by omega
    have hu : (0 : ℚ) < 2 ^ (binade ((m : ℚ) * 2 ^ k) - 52) := by positivity
    rw [div_eq_iff (ne_of_gt hu)]
    nth_rewrite 1 [hk2]
    rw [zpow_add₀ (by norm_num : (2 : ℚ) ≠ 0)]
    push_cast
    rw [zpow_natCast]
    ring
  rw [toDouble, hq, roundHalfEven_intCast, ← hq]
  have hu : (0 : ℚ) < 2 ^ (binade ((m : ℚ) * 2 ^ k) - 52) := by positivity
  field_simp

theorem toDouble_intCast (n : ℤ) (h0 : 0 ≤ n) (h : n < 2 ^ 53) : toDouble (n : ℚ) = n := by
  rcases eq_or_lt_of_le h0 with hz | hpos
  · rw [← hz]
    simp [toDouble_zero]
  · have := toDouble_mul_zpow n 0 hpos h (by norm_num)
    simpa using this

/-! ## The loop of `calculateLineLength` -/

theorem index_map_toVal (cs : List Coordinate) (i : Nat) (h : i < cs.length) :
    Val.index (cs.map Coordinate.toVal) i = (cs.get ⟨i, h⟩).toVal := by
  simp [Val.index, List.getD, h]

theorem destructure2_toVal (c : Coordinate) :
    destructure2 c.toVal = .ok (.num c.lon, .num c.lat) := rfl

theorem loop_wellFormed (L : Leaflet) (cs : List Coordinate) :
    ∀ (fuel i : Nat) (length : ℚ), 1 ≤ i → cs.length ≤ i + fuel →
      calculateLineLength.loop L (cs.map Coordinate.toVal) fuel i length
        = .ok (((segments L cs).drop (i - 1)).foldl addNumber length) := by
  intro fuel
  induction fuel with
  | zero =>
    intro i length hi hfuel
    have : (segments L cs).drop (i - 1) = [] := by
      apply List.drop_eq_nil_of_le
      simp [segments]
      omega
    simp [calculateLineLength.loop, this]
  | succ fuel ih =>
    intro i length hi hfuel
    by_cases hlt : i < cs.length
    · have h1 : i - 1 < cs.length := by omega
      have hz : i - 1 < (segments L cs).length := by
        simp [segments]; omega
      have hd : (segments L cs).drop (i - 1)
          = L.dist (cs.get ⟨i - 1, h1⟩) (cs.get ⟨i, hlt⟩)
            :: (segments L cs).drop i := by
        rw [List.drop_eq_getElem_cons hz]
        have : i - 1 + 1 = i := by omega
        simp [segments, this]
      rw [calculateLineLength.loop]
      simp only [List.length_map, hlt, if_true]
      rw [index_map_toVal cs (i - 1) h1, index_map_toVal cs i hlt]
      simp only [destructure2_toVal, bind, Except.bind, Leaflet.distanceTo]
      rw [ih (i + 1) _ (by omega) (by omega), hd]
      simp [Leaflet.dist]
    · have : (segments L cs).drop (i - 1) = [] := by
        apply List.drop_eq_nil_of_le
        simp [segments]
        omega
      rw [calculateLineLength.loop]
      simp [hlt, this]

theorem calculateLineLength_lineVal (L : Leaflet) (cs : List Coordinate) :
    calculateLineLength L (lineVal cs) = .ok (computeLineLength L cs) := by
  simp only [calculateLineLength, lineVal, List.length_map]
  rw [loop_wellFormed L cs cs.length 1 0 le_rfl (by omega)]
  simp [computeLineLength, doubleSum, bind, Except.bind, pure, Except.pure]

theorem Math.round_intCast (n : ℤ) : Math.round (n : ℚ) = n := by
  unfold Math.round
  rw [Int.floor_eq_iff]
  constructor <;> norm_num

theorem Math.round_zero : Math.round 0 = 0 := by
  have := Math.round_intCast 0
  simpa using this

theorem Math.round_mono {x y : ℚ} (h : x ≤ y) : Math.round x ≤ Math.round y := by
  unfold Math.round
  exact Int.floor_mono (by linarith)

theorem Math.round_nearest (x : ℚ) (n : ℤ) :
    |((Math.round x : ℤ) : ℚ) - x| ≤ |(n : ℚ) - x| := by
  unfold Math.round
  have h1 : ((⌊x + 1 / 2⌋ : ℤ) : ℚ) ≤ x + 1 / 2 := Int.floor_le _
  have h2 : x + 1 / 2 < ((⌊x + 1 / 2⌋ : ℤ) : ℚ) + 1 := Int.lt_floor_add_one _
  have ha := le_abs_self ((n : ℚ) - x)
  have hb := neg_le_abs ((n : ℚ) - x)
  rcases lt_trichotomy n ⌊x + 1 / 2⌋ with h | h | h
  · have : (n : ℚ) + 1 ≤ ((⌊x + 1 / 2⌋ : ℤ) : ℚ) := by exact_mod_cast h
    rw [abs_le]
    constructor <;> linarith
  · rw [h]
  · have : ((⌊x + 1 / 2⌋ : ℤ) : ℚ) + 1 ≤ (n : ℚ) := by exact_mod_cast h
    rw [abs_le]
    constructor <;> linarith

theorem segments_append (L : Leaflet) (cs : List Coordinate) (p : Coordinate) :
    segments L (cs ++ [p])
      = segments L cs ++ (match cs.getLast? with
          | some l => [L.dist l p]
          | none => []) := by
  induction cs with
  | nil => simp [segments]
  | cons a rest ih =>
    cases rest with
    | nil => simp [segments]
    | cons b rest' =>
      simp only [segments, List.cons_append, List.tail_cons, List.zipWith_cons_cons] at ih ⊢
      rw [ih]
      simp [List.getLast?_cons_cons]

theorem doubleSum_append (L : Leaflet) (cs : List Coordinate) (p : Coordinate) :
    doubleSum L (cs ++ [p])
      = match cs.getLast? with
        | some l => addNumber (doubleSum L cs) (L.dist l p)
        | none => doubleSum L cs := by
  unfold doubleSum
  rw [segments_append]
  cases cs.getLast? <;> simp [List.foldl_append]

theorem foldl_addNumber_nonneg_double :
    ∀ (ds : List ℚ) (acc : ℚ), 0 ≤ acc → isDouble acc → (∀ d ∈ ds, 0 ≤ d) →
      0 ≤ ds.foldl addNumber acc ∧ isDouble (ds.foldl addNumber acc) := by
  intro ds
  induction ds with
  | nil => intro acc h0 hd _; exact ⟨h0, hd⟩
  | cons d rest ih =>
    intro acc h0 _ hds
    have hd0 : 0 ≤ d := hds d (List.mem_cons_self _ _)
    have hsum : 0 ≤ acc + d := add_nonneg h0 hd0
    apply ih (addNumber acc d) (toDouble_nonneg hsum) (toDouble_idem hsum)
    intro x hx
    exact hds x (List.mem_cons_of_mem _ hx)

theorem segments_nonneg (L : Leaflet)
    (hnonneg : ∀ a b c d : ℚ, 0 ≤ L.distance a b c d) (cs : List Coordinate) :
    ∀ d ∈ segments L cs, 0 ≤ d := by
  intro x hx
  rw [List.mem_iff_get] at hx
  obtain ⟨i, rfl⟩ := hx
  simp [segments, Leaflet.dist, hnonneg]

theorem doubleSum_nonneg_double (L : Leaflet)
    (hnonneg : ∀ a b c d : ℚ, 0 ≤ L.distance a b c d) (cs : List Coordinate) :
    0 ≤ doubleSum L cs ∧ isDouble (doubleSum L cs) :=
  foldl_addNumber_nonneg_double _ 0 le_rfl toDouble_zero (segments_nonneg L hnonneg cs)

theorem le_addNumber {a d : ℚ} (ha : 0 ≤ a) (hda : isDouble a) (hd : 0 ≤ d) :
    a ≤ addNumber a d := by
  have := toDouble_mono ha (show a ≤ a + d by linarith)
  rwa [hda] at this

theorem foldl_addNumber_exact :
    ∀ (ds : List ℚ) (acc : ℚ),
      (∀ k, k < ds.length → isDouble (acc + (ds.take (k + 1)).sum)) →
      ds.foldl addNumber acc = acc + ds.sum := by
  intro ds
  induction ds with
  | nil => intro acc _; simp
  | cons d rest ih =>
    intro acc h
    have h1 : addNumber acc d = acc + d := by
      have := h 0 (by simp)
      simpa [isDouble, addNumber] using this
    rw [List.foldl_cons, h1, ih]
    · simp [add_assoc]
    · intro k hk
      have := h (k + 1) (by simpa using hk)
      simpa [add_assoc] using this

theorem sumLineLengths_linesVal (L : Leaflet) (ls : List (List Coordinate)) :
    sumLineLengths L (ls.map lineVal) = .ok (ls.map (computeLineLength L)).sum := by
  induction ls with
  | nil => rfl
  | cons l rest ih =>
    simp [sumLineLengths, calculateLineLength_lineVal, ih, bind, Except.bind, pure, Except.pure]

theorem calculateLineLength_empty (L : Leaflet) : calculateLineLength L (.arr []) = .ok 0 := by
  simp [calculateLineLength, calculateLineLength.loop, bind, Except.bind, pure, Except.pure,
    Math.round_zero]

/-! ## Objects as dictionaries -/

theorem Dict.get_set {α : Type} (obj : Dict α) (key : String) (value : α) (k : String) :
    Dict.get (Dict.set obj key value) k = if key = k then some value else Dict.get obj k := by
  induction obj with
  | nil => simp [Dict.set, Dict.get]
  | cons p rest ih =>
    obtain ⟨k0, v0⟩ := p
    by_cases h : k0 = key
    · subst h
      by_cases h2 : k0 = k <;> simp [Dict.set, Dict.get, h2]
    · by_cases h2 : k0 = k
      · subst h2
        simp [Dict.set, Dict.get, h, Ne.symm h]
      · simp [Dict.set, Dict.get, h, h2, ih]

theorem Dict.modify_eq_set {α : Type} (obj : Dict α) (key : String) (f : α → α) (v : α)
    (h : Dict.get obj key = some v) : Dict.modify obj key f = Dict.set obj key (f v) := by
  induction obj with
  | nil => simp [Dict.get] at h
  | cons p rest ih =>
    obtain ⟨k0, v0⟩ := p
    by_cases h0 : k0 = key
    · simp [Dict.get, h0] at h
      simp [Dict.modify, Dict.set, h0, h]
    · simp [Dict.get, h0] at h
      simp [Dict.modify, Dict.set, h0, ih h]

theorem Dict.modify_of_get_none {α : Type} (obj : Dict α) (key : String) (f : α → α)
    (h : Dict.get obj key = none) : Dict.modify obj key f = obj := by
  induction obj with
  | nil => rfl
  | cons p rest ih =>
    obtain ⟨k0, v0⟩ := p
    by_cases h0 : k0 = key
    · simp [Dict.get, h0] at h
    · simp [Dict.get, h0] at h
      simp [Dict.modify, h0, ih h]

theorem Dict.set_set {α : Type} (obj : Dict α) (key : String) (v w : α) :
    Dict.set (Dict.set obj key v) key w = Dict.set obj key w := by
  induction obj with
  | nil => simp [Dict.set]
  | cons p rest ih =>
    obtain ⟨k0, v0⟩ := p
    by_cases h0 : k0 = key <;> simp [Dict.set, h0, ih]

theorem Dict.mem_keys_iff {α : Type} (obj : Dict α) (k : String) :
    k ∈ Dict.keys obj ↔ (Dict.get obj k).isSome = true := by
  induction obj with
  | nil => simp [Dict.keys, Dict.get]
  | cons p rest ih =>
    obtain ⟨k0, v0⟩ := p
    by_cases h0 : k0 = k
    · simp [Dict.keys, Dict.get, h0]
    · simp only [Dict.keys] at ih
      simp [Dict.keys, Dict.get, h0, Ne.symm h0, ih]

theorem Dict.keys_set {α : Type} (obj : Dict α) (key : String) (value : α) :
    Dict.keys (Dict.set obj key value)
      = if key ∈ Dict.keys obj then Dict.keys obj else Dict.keys obj ++ [key] := by
  induction obj with
  | nil => simp [Dict.keys, Dict.set]
  | cons p rest ih =>
    obtain ⟨k, v⟩ := p
    simp only [Dict.keys] at ih
    by_cases h : k = key
    · simp [Dict.keys, Dict.set, h]
    · by_cases hm : key ∈ List.map Prod.fst rest
      · simp [Dict.keys, Dict.set, h, ih, hm]
      · simp [Dict.keys, Dict.set, h, ih, hm, Ne.symm h]

theorem Dict.nodup_keys_set {α : Type} (obj : Dict α) (key : String) (value : α)
    (h : (Dict.keys obj).Nodup) : (Dict.keys (Dict.set obj key value)).Nodup := by
  rw [Dict.keys_set]
  split
  · exact h
  · rename_i hk
    exact List.Nodup.append h (List.nodup_singleton _) (by simpa using hk)

theorem Dict.lookup_of_get_some {α : Type} (obj : Dict α) (key : String) (v : α)
    (h : Dict.get obj key = some v) : Dict.lookup obj key = .own v := by
  simp [Dict.lookup, h]

theorem Dict.lookup_of_get_none {α : Type} (obj : Dict α) (key : String)
    (h : Dict.get obj key = none) :
    Dict.lookup obj key
      = if key ∈ objectPrototypeKeys then Lookup.inherited else Lookup.undefined := by
  simp [Dict.lookup, h]

theorem lineLike_not_inherited {t : String} (h : t ∈ lineLike) : t ∉ objectPrototypeKeys := by
  simp only [lineLike, List.mem_cons, List.mem_singleton, List.not_mem_nil, or_false] at h
  rcases h with rfl | rfl | rfl <;> decide

theorem record_of_not_inherited (details : Dict Entry) (type : String) (n : ℤ)
    (h : type ∉ objectPrototypeKeys) :
    record details type n
      = Dict.set details type
          ⟨((Dict.get details type).map Entry.count).getD 0 + 1,
           ((Dict.get details type).map Entry.totalLength).getD 0 + n⟩ := by
  unfold record
  cases hg : Dict.get details type with
  | some e => rw [Dict.lookup_of_get_some _ _ e hg]
  | none => rw [Dict.lookup_of_get_none _ _ hg, if_neg h]

theorem get_record (details : Dict Entry) (type : String) (n : ℤ) (k : String)
    (hk : k ∉ objectPrototypeKeys) :
    Dict.get (record details type n) k
      = if type = k then
          some ⟨((Dict.get details type).map Entry.count).getD 0 + 1,
                ((Dict.get details type).map Entry.totalLength).getD 0 + n⟩
        else Dict.get details k := by
  by_cases h : type ∈ objectPrototypeKeys
  · have hne : type ≠ k := fun e => hk (e ▸ h)
    rw [if_neg hne]
    unfold record
    cases hg : Dict.get details type with
    | some e =>
      rw [Dict.lookup_of_get_some _ _ e hg]
      simp [Dict.get_set, hne]
    | none =>
      rw [Dict.lookup_of_get_none _ _ hg, if_pos h]
  · rw [record_of_not_inherited _ _ _ h, Dict.get_set]

theorem get_record_inherited (details : Dict Entry) (type : String) (n : ℤ) (k : String)
    (hk : k ∈ objectPrototypeKeys) (hnone : Dict.get details k = none) :
    Dict.get (record details type n) k = none := by
  unfold record
  cases hg : Dict.get details type with
  | some e =>
    rw [Dict.lookup_of_get_some _ _ e hg]
    have hne : type ≠ k := by
      intro e'
      rw [e'] at hg
      rw [hg] at hnone
      cases hnone
    simp [Dict.get_set, hne, hnone]
  | none =>
    rw [Dict.lookup_of_get_none _ _ hg]
    by_cases h : type ∈ objectPrototypeKeys
    · rw [if_pos h]
      exact hnone
    · rw [if_neg h]
      have hne : type ≠ k := fun e => h (e ▸ hk)
      simp [Dict.get_set, hne, hnone]

theorem record_eq (details : Dict Entry) (type : String) (n : ℤ) :
    record details type n
      = if type ∈ objectPrototypeKeys ∧ Dict.get details type = none then details
        else Dict.set details type
          ⟨((Dict.get details type).map Entry.count).getD 0 + 1,
           ((Dict.get details type).map Entry.totalLength).getD 0 + n⟩ := by
  unfold record
  cases hg : Dict.get details type with
  | some e =>
    rw [Dict.lookup_of_get_some _ _ e hg]
    simp
  | none =>
    rw [Dict.lookup_of_get_none _ _ hg]
    by_cases h : type ∈ objectPrototypeKeys <;> simp [h]

theorem addLength_record (details : Dict Entry) (type : String) (n m : ℤ) :
    addLength (record details type n) type m = record details type (n + m) := by
  unfold addLength
  rw [record_eq, record_eq]
  by_cases h : type ∈ objectPrototypeKeys ∧ Dict.get details type = none
  · rw [if_pos h, if_pos h]
    exact Dict.modify_of_get_none _ _ _ h.2
  · rw [if_neg h, if_neg h]
    have hget : Dict.get (Dict.set details type
          ⟨((Dict.get details type).map Entry.count).getD 0 + 1,
           ((Dict.get details type).map Entry.totalLength).getD 0 + n⟩) type
        = some ⟨((Dict.get details type).map Entry.count).getD 0 + 1,
           ((Dict.get details type).map Entry.totalLength).getD 0 + n⟩ := by
      rw [Dict.get_set]; simp
    rw [Dict.modify_eq_set _ _ _ _ hget]
    simp [Dict.set_set, add_assoc]

theorem step_prepare (details : Dict Entry) (type : String) :
    Dict.modify
      (match Dict.lookup details type with
        | .undefined => Dict.set details type ⟨0, 0⟩
        | _ => details)
      type (fun e => { e with count := e.count + 1 }) = record details type 0 := by
  unfold record
  cases hg : Dict.get details type with
  | some e =>
    rw [Dict.lookup_of_get_some _ _ e hg]
    simp only
    rw [Dict.modify_eq_set _ _ _ e hg]
    simp
  | none =>
    rw [Dict.lookup_of_get_none _ _ hg]
    by_cases h : type ∈ objectPrototypeKeys
    · simp only [if_pos h]
      exact Dict.modify_of_get_none _ _ _ hg
    · simp only [if_neg h]
      rw [Dict.modify_eq_set _ _ _ ⟨0, 0⟩ (by rw [Dict.get_set]; simp)]
      simp [Dict.set_set]

theorem forEachLine_arr (L : Leaflet) (type : String) (lines : List Val) :
    ∀ (details : Dict Entry) (n : ℤ),
      forEachLine L type (.arr lines) (record details type n)
        = (sumLineLengths L lines).map (fun s => record details type (n + s)) := by
  induction lines with
  | nil =>
    intro details n
    simp [forEachLine, sumLineLengths, Except.map, pure, Except.pure]
  | cons line rest ih =>
    intro details n
    simp only [forEachLine, List.foldlM_cons, sumLineLengths] at ih ⊢
    cases h : calculateLineLength L line with
    | error e => simp [bind, Except.bind, Except.map]
    | ok a =>
      simp only [bind, Except.bind, pure, Except.pure, addLength_record]
      have := ih details (n + a)
      simp only [bind, Except.bind, pure, Except.pure] at this
      rw [this]
      cases sumLineLengths L rest <;> simp [Except.map, add_assoc]

theorem step_eq (L : Leaflet) (details : Dict Entry) (feature : Feature) :
    generateDetailedData.step L details feature
      = (lengthContribution L feature).map (record details feature.geometry.type) := by
  unfold generateDetailedData.step lengthContribution
  simp only [step_prepare]
  by_cases h1 : feature.geometry.type = "LineString"
  · simp only [h1, List.mem_cons, true_or, if_true]
    cases calculateLineLength L feature.geometry.coordinates <;>
      simp [bind, Except.bind, Except.map, pure, Except.pure, addLength_record]
  · by_cases h2 : feature.geometry.type = "MultiLineString" ∨ feature.geometry.type = "Polygon"
    · have hm : feature.geometry.type ∈ ["LineString", "MultiLineString", "Polygon"] := by
        rcases h2 with h2 | h2 <;> simp [h2]
      simp only [hm, h1, h2, if_true, if_false]
      cases hc : feature.geometry.coordinates with
      | arr lines =>
        rw [forEachLine_arr]
        simp
      | undefined => simp [forEachLine, Except.map]
      | num x => simp [forEachLine, Except.map]
    · have hm : ¬ feature.geometry.type ∈ ["LineString", "MultiLineString", "Polygon"] := by
        simp only [List.mem_cons, List.mem_singleton, List.not_mem_nil, or_false, not_or] at *
        exact ⟨h1, h2.1, h2.2⟩
      simp [hm, h1, h2, Except.map, pure, Except.pure]

/-! ## The two passes over the features -/

theorem foldlM_step_ok (L : Leaflet) (c : Feature → ℤ) :
    ∀ (fs : List Feature) (details : Dict Entry),
      (∀ f ∈ fs, lengthContribution L f = .ok (c f)) →
      fs.foldlM (generateDetailedData.step L) details = .ok (recordAll c details fs) := by
  intro fs
  induction fs with
  | nil => intro details _; rfl
  | cons f rest ih =>
    intro details h
    have hf := h f (List.mem_cons_self _ _)
    simp only [List.foldlM_cons, step_eq, hf, Except.map, bind, Except.bind]
    exact ih _ (fun g hg => h g (List.mem_cons_of_mem _ hg))

theorem foldlM_step_error (L : Leaflet) :
    ∀ (fs : List Feature) (details : Dict Entry) (f : Feature) (e : Error),
      f ∈ fs → lengthContribution L f = .error e →
      ∃ e', fs.foldlM (generateDetailedData.step L) details = .error e' := by
  intro fs
  induction fs with
  | nil => intro _ f _ hf; simp at hf
  | cons g rest ih =>
    intro details f e hf hc
    simp only [List.foldlM_cons, step_eq]
    cases hg : lengthContribution L g with
    | error e0 => exact ⟨e0, by simp [Except.map, bind, Except.bind]⟩
    | ok n =>
      simp only [Except.map, bind, Except.bind]
      rcases List.mem_cons.mp hf with rfl | hmem
      · rw [hg] at hc; cases hc
      · exact ih _ f e hmem hc

theorem typeCount_cons (f : Feature) (fs : List Feature) (t : String) :
    typeCount (f :: fs) t = (if f.geometry.type = t then 1 else 0) + typeCount fs t := by
  by_cases h : f.geometry.type = t <;> simp [typeCount, List.filter_cons, h, add_comm]

theorem typeLength_cons (c : Feature → ℤ) (f : Feature) (fs : List Feature) (t : String) :
    typeLength c (f :: fs) t = (if f.geometry.type = t then c f else 0) + typeLength c fs t := by
  by_cases h : f.geometry.type = t <;> simp [typeLength, List.filter_cons, h]

theorem typeLength_eq_zero (c : Feature → ℤ) (fs : List Feature) (t : String)
    (h : typeCount fs t = 0) : typeLength c fs t = 0 := by
  have : fs.filter (fun f => f.geometry.type = t) = [] :=
    List.length_eq_zero.mp h
  simp [typeLength, this]

theorem typeCount_eq_zero_iff (fs : List Feature) (t : String) :
    typeCount fs t = 0 ↔ ¬ ∃ f ∈ fs, f.geometry.type = t := by
  simp [typeCount, List.filter_eq_nil_iff]

theorem get_recordAll (c : Feature → ℤ) :
    ∀ (fs : List Feature) (details : Dict Entry) (t : String), t ∉ objectPrototypeKeys →
      Dict.get (recordAll c details fs) t =
        if typeCount fs t = 0 then Dict.get details t
        else some ⟨((Dict.get details t).map Entry.count).getD 0 + typeCount fs t,
                   ((Dict.get details t).map Entry.totalLength).getD 0 + typeLength c fs t⟩ := by
  intro fs
  induction fs with
  | nil => intro details t _; simp [recordAll, typeCount]
  | cons f rest ih =>
    intro details t ht
    have := ih (record details f.geometry.type (c f)) t ht
    simp only [recordAll, List.foldl_cons] at this ⊢
    rw [this, typeCount_cons, typeLength_cons, get_record _ _ _ _ ht]
    by_cases h : f.geometry.type = t
    · subst h
      by_cases h0 : typeCount rest f.geometry.type = 0
      · simp [h0, typeLength_eq_zero c rest _ h0]
      · simp [h0, add_assoc, add_comm 1]
    · simp [h]

theorem get_recordAll_inherited (c : Feature → ℤ) :
    ∀ (fs : List Feature) (details : Dict Entry) (t : String), t ∈ objectPrototypeKeys →
      Dict.get details t = none → Dict.get (recordAll c details fs) t = none := by
  intro fs
  induction fs with
  | nil => intro details t _ h; exact h
  | cons f rest ih =>
    intro details t ht h
    simp only [recordAll, List.foldl_cons]
    exact ih _ t ht (get_record_inherited details _ _ t ht h)

theorem get_recordAll_nil (c : Feature → ℤ) (fs : List Feature) (t : String)
    (hi : t ∉ objectPrototypeKeys) (ht : ∃ f ∈ fs, f.geometry.type = t) :
    Dict.get (recordAll c [] fs) t = some ⟨typeCount fs t, typeLength c fs t⟩ := by
  have h0 : typeCount fs t ≠ 0 := by
    rw [Ne, typeCount_eq_zero_iff]
    exact not_not.mpr ht
  rw [get_recordAll c fs [] t hi]
  simp [h0, Dict.get]

theorem get_summary_step (counts : Dict CountVal) (f : Feature) (t : String)
    (ht : t ∉ objectPrototypeKeys) (k : Option Nat)
    (hk : Dict.get counts t = k.map CountVal.number) :
    Dict.get (generateSummary.step counts f) t
      = (if f.geometry.type = t then some (k.getD 0 + 1) else k).map CountVal.number := by
  unfold generateSummary.step Dict.assign
  by_cases h : f.geometry.type = t
  · have hp : f.geometry.type ≠ "__proto__" := by
      rw [h]
      intro e
      exact ht (e ▸ by decide)
    rw [if_neg hp, Dict.get_set, if_pos h, if_pos h]
    rw [← h] at hk ht
    cases k with
    | none =>
      rw [Dict.lookup_of_get_none _ _ hk, if_neg ht]
      rfl
    | some n =>
      rw [Dict.lookup_of_get_some _ _ _ hk]
      rfl
  · rw [if_neg h]
    by_cases hp : f.geometry.type = "__proto__"
    · rw [if_pos hp, hk]
    · rw [if_neg hp, Dict.get_set, if_neg h, hk]

theorem get_foldl_summary :
    ∀ (fs : List Feature) (counts : Dict CountVal) (t : String), t ∉ objectPrototypeKeys →
      ∀ k : Option Nat, Dict.get counts t = k.map CountVal.number →
      Dict.get (fs.foldl generateSummary.step counts) t =
        (if typeCount fs t = 0 then k else some (k.getD 0 + typeCount fs t)).map
          CountVal.number := by
  intro fs
  induction fs with
  | nil => intro counts t _ k hk; simpa [typeCount] using hk
  | cons f rest ih =>
    intro counts t ht k hk
    rw [List.foldl_cons, ih _ t ht _ (get_summary_step counts f t ht k hk), typeCount_cons]
    by_cases h : f.geometry.type = t
    · by_cases h0 : typeCount rest t = 0
      · simp [h, h0]
      · simp [h, h0, add_assoc, add_comm 1]
    · simp [h]

theorem nodup_keys_foldl_summary :
    ∀ (fs : List Feature) (counts : Dict CountVal), (Dict.keys counts).Nodup →
      (Dict.keys (fs.foldl generateSummary.step counts)).Nodup := by
  intro fs
  induction fs with
  | nil => intro counts h; exact h
  | cons f rest ih =>
    intro counts h
    apply ih
    unfold generateSummary.step Dict.assign
    by_cases hp : f.geometry.type = "__proto__"
    · simp only [hp, if_true]
      exact h
    · simp only [hp, if_false]
      exact Dict.nodup_keys_set _ _ _ h

theorem get_detailCounts (details : Dict Entry) (t : String) :
    Dict.get (detailCounts details) t
      = (Dict.get details t).map (fun e => CountVal.number e.count) := by
  induction details with
  | nil => simp [detailCounts, Dict.get]
  | cons p rest ih =>
    obtain ⟨k, v⟩ := p
    simp only [detailCounts] at ih
    by_cases h : k = t <;> simp [detailCounts, Dict.get, h, ih]

theorem detailCounts_set (details : Dict Entry) (t : String) (e : Entry) :
    detailCounts (Dict.set details t e)
      = Dict.set (detailCounts details) t (CountVal.number e.count) := by
  induction details with
  | nil => simp [detailCounts, Dict.set]
  | cons p rest ih =>
    obtain ⟨k, v⟩ := p
    simp only [detailCounts] at ih
    by_cases h : k = t <;> simp [detailCounts, Dict.set, h, ih]

theorem keys_detailCounts (details : Dict Entry) :
    Dict.keys (detailCounts details) = Dict.keys details := by
  simp [Dict.keys, detailCounts, List.map_map, Function.comp_def]

theorem detailCounts_record (details : Dict Entry) (f : Feature) (n : ℤ)
    (ht : f.geometry.type ∉ objectPrototypeKeys) :
    detailCounts (record details f.geometry.type n)
      = generateSummary.step (detailCounts details) f := by
  have hp : f.geometry.type ≠ "__proto__" := by
    intro e
    exact ht (e ▸ by decide)
  rw [record_of_not_inherited _ _ _ ht, detailCounts_set]
  unfold generateSummary.step Dict.assign
  rw [if_neg hp]
  cases hg : Dict.get details f.geometry.type with
  | none =>
    have : Dict.get (detailCounts details) f.geometry.type = none := by
      rw [get_detailCounts, hg]; rfl
    rw [Dict.lookup_of_get_none _ _ this, if_neg ht]
    rfl
  | some e =>
    have : Dict.get (detailCounts details) f.geometry.type = some (CountVal.number e.count) := by
      rw [get_detailCounts, hg]; rfl
    rw [Dict.lookup_of_get_some _ _ _ this]
    rfl

theorem detailCounts_recordAll (c : Feature → ℤ) :
    ∀ (fs : List Feature) (details : Dict Entry),
      (∀ f ∈ fs, f.geometry.type ∉ objectPrototypeKeys) →
      detailCounts (recordAll c details fs)
        = fs.foldl generateSummary.step (detailCounts details) := by
  intro fs
  induction fs with
  | nil => intro details _; rfl
  | cons f rest ih =>
    intro details h
    have := ih (record details f.geometry.type (c f))
      (fun g hg => h g (List.mem_cons_of_mem _ hg))
    simp only [recordAll, List.foldl_cons] at this ⊢
    rw [this, detailCounts_record _ _ _ (h f (List.mem_cons_self _ _))]

theorem sum_count_set (details : Dict Entry) (t : String) (e : Entry) :
    ((Dict.set details t e).map (fun p => p.2.count)).sum
        + ((Dict.get details t).map Entry.count).getD 0
      = (details.map (fun p => p.2.count)).sum + e.count := by
  induction details with
  | nil => simp [Dict.set, Dict.get]
  | cons p rest ih =>
    obtain ⟨k, v⟩ := p
    by_cases h : k = t
    · simp [Dict.set, Dict.get, h]; omega
    · simp [Dict.set, Dict.get, h]; omega

theorem sum_count_recordAll (c : Feature → ℤ) :
    ∀ (fs : List Feature) (details : Dict Entry),
      (∀ f ∈ fs, f.geometry.type ∉ objectPrototypeKeys) →
      ((recordAll c details fs).map (fun p => p.2.count)).sum
        = (details.map (fun p => p.2.count)).sum + fs.length := by
  intro fs
  induction fs with
  | nil => intro details _; simp [recordAll]
  | cons f rest ih =>
    intro details h
    have := ih (record details f.geometry.type (c f))
      (fun g hg => h g (List.mem_cons_of_mem _ hg))
    simp only [recordAll, List.foldl_cons] at this ⊢
    rw [this, record_of_not_inherited _ _ _ (h f (List.mem_cons_self _ _))]
    have hs := sum_count_set details f.geometry.type
      ⟨((Dict.get details f.geometry.type).map Entry.count).getD 0 + 1,
       ((Dict.get details f.geometry.type).map Entry.totalLength).getD 0 + c f⟩
    simp only [List.length_cons] at hs ⊢
    omega

theorem typeLength_eq_zero_of_forall (c : Feature → ℤ) (fs : List Feature) (t : String)
    (h : ∀ f ∈ fs, f.geometry.type = t → c f = 0) : typeLength c fs t = 0 := by
  unfold typeLength
  apply List.sum_eq_zero
  intro x hx
  rw [List.mem_map] at hx
  obtain ⟨f, hf, rfl⟩ := hx
  rw [List.mem_filter] at hf
  exact h f hf.1 (by simpa using hf.2)

theorem generateDetailedData_ok (L : Leaflet) (fs : List Feature) (c : Feature → ℤ)
    (hc : ∀ f ∈ fs, lengthContribution L f = .ok (c f)) :
    generateDetailedData L ⟨fs⟩ = .ok (recordAll c [] fs) :=
  foldlM_step_ok L c fs [] hc

theorem generateDetailedData_ok_iff (L : Leaflet) (fs : List Feature) :
    (∃ details, generateDetailedData L ⟨fs⟩ = .ok details)
      ↔ ∀ f ∈ fs, ∃ n, lengthContribution L f = .ok n := by
  constructor
  · rintro ⟨details, h⟩ f hf
    cases hc : lengthContribution L f with
    | ok n => exact ⟨n, rfl⟩
    | error e =>
      obtain ⟨e', he⟩ := foldlM_step_error L fs [] f e hf hc
      simp only [generateDetailedData] at h
      rw [he] at h
      cases h
  · intro h
    choose! c hc using h
    exact ⟨_, generateDetailedData_ok L fs c hc⟩

theorem generateDetailedData_append_one (L : Leaflet) (fs : List Feature) (c : Feature → ℤ)
    (hc : ∀ f ∈ fs, lengthContribution L f = .ok (c f)) (g : Feature) (n : ℤ)
    (hg : lengthContribution L g = .ok n) :
    generateDetailedData L ⟨fs ++ [g]⟩
      = .ok (record (recordAll c [] fs) g.geometry.type n) := by
  simp only [generateDetailedData, List.foldlM_append, foldlM_step_ok L c fs [] hc,
    List.foldlM_cons, List.foldlM_nil, step_eq, hg, bind, Except.bind, Except.map, pure,
    Except.pure]

theorem totalLengthOf_record (details : Dict Entry) (t : String) (n : ℤ)
    (ht : t ∉ objectPrototypeKeys) :
    totalLengthOf (record details t n) t = totalLengthOf details t + n := by
  simp [totalLengthOf, get_record _ _ _ _ ht]

theorem lengthContribution_lineString (L : Leaflet) (cs : List Coordinate) :
    lengthContribution L ⟨⟨"LineString", lineVal cs⟩⟩ = .ok (computeLineLength L cs) := by
  simp [lengthContribution, calculateLineLength_lineVal]

theorem lengthContribution_multiLineString (L : Leaflet) (ls : List (List Coordinate)) :
    lengthContribution L ⟨⟨"MultiLineString", linesVal ls⟩⟩
      = .ok (ls.map (computeLineLength L)).sum := by
  simp [lengthContribution, linesVal, sumLineLengths_linesVal]

theorem lengthContribution_polygon (L : Leaflet) (rings : List (List Coordinate)) :
    lengthContribution L ⟨⟨"Polygon", linesVal rings⟩⟩
      = .ok (rings.map (computeLineLength L)).sum := by
  simp [lengthContribution, linesVal, sumLineLengths_linesVal]

theorem lengthContribution_other (L : Leaflet) (f : Feature)
    (h : f.geometry.type ∉ lineLike) : lengthContribution L f = .ok 0 := by
  simp only [lineLike, List.mem_cons, List.mem_singleton, List.not_mem_nil, or_false,
    not_or] at h
  simp [lengthContribution, h.1, h.2.1, h.2.2]

/-! ## Empty and missing coordinates -/

theorem sumLineLengths_all_empty (L : Leaflet) (lines : List Val)
    (h : lines.all (fun line => match line with
        | .arr [] => true
        | _ => false) = true) :
    sumLineLengths L lines = .ok 0 := by
  induction lines with
  | nil => rfl
  | cons line rest ih =>
    rw [List.all_cons, Bool.and_eq_true] at h
    have hline : line = .arr [] := by
      obtain ⟨h1, _⟩ := h
      split at h1
      · rfl
      · cases h1
    rw [sumLineLengths, hline, calculateLineLength_empty, ih h.2]
    rfl

theorem lengthContribution_empty (L : Leaflet) (f : Feature)
    (h : emptyCoordinates f = true) : lengthContribution L f = .ok 0 := by
  unfold emptyCoordinates at h
  unfold lengthContribution
  cases hc : f.geometry.coordinates with
  | undefined => rw [hc] at h; cases h
  | num x => rw [hc] at h; cases h
  | arr lines =>
    rw [hc] at h
    simp only at h
    by_cases h1 : f.geometry.type = "LineString"
    · simp only [h1, if_true] at h ⊢
      rw [List.isEmpty_iff] at h
      rw [h, calculateLineLength_empty]
    · by_cases h2 : f.geometry.type = "MultiLineString" ∨ f.geometry.type = "Polygon"
      · simp only [h1, h2, if_true, if_false] at h ⊢
        exact sumLineLengths_all_empty L lines h
      · simp only [h1, h2, if_false] at h
        cases h

theorem emptyCoordinates_lineLike (f : Feature) (h : emptyCoordinates f = true) :
    f.geometry.type ∈ lineLike := by
  unfold emptyCoordinates at h
  cases hc : f.geometry.coordinates with
  | undefined => rw [hc] at h; cases h
  | num x => rw [hc] at h; cases h
  | arr lines =>
    rw [hc] at h
    simp only at h
    by_cases h1 : f.geometry.type = "LineString"
    · simp [lineLike, h1]
    · by_cases h2 : f.geometry.type = "MultiLineString" ∨ f.geometry.type = "Polygon"
      · rcases h2 with h2 | h2 <;> simp [lineLike, h2]
      · simp only [h1, h2, if_false] at h
        cases h

theorem sumLineLengths_undefined (L : Leaflet) (lines : List Val)
    (h : Val.undefined ∈ lines) : ∃ e, sumLineLengths L lines = .error e := by
  induction lines with
  | nil => simp at h
  | cons line rest ih =>
    rw [sumLineLengths]
    cases hl : calculateLineLength L line with
    | error e => exact ⟨e, rfl⟩
    | ok n =>
      rcases List.mem_cons.mp h with rfl | hmem
      · simp [calculateLineLength] at hl
      · obtain ⟨e, he⟩ := ih hmem
        exact ⟨e, by simp [he, bind, Except.bind]⟩

theorem lengthContribution_missing (L : Leaflet) (f : Feature)
    (h : missingCoordinates f) : ∃ e, lengthContribution L f = .error e := by
  unfold lengthContribution
  rcases h with ⟨ht, hc⟩ | ⟨ht, lines, hc, hmem⟩
  · simp only [lineLike, List.mem_cons, List.mem_singleton, List.not_mem_nil, or_false] at ht
    by_cases h1 : f.geometry.type = "LineString"
    · exact ⟨.typeError, by simp [h1, hc, calculateLineLength]⟩
    · have h2 : f.geometry.type = "MultiLineString" ∨ f.geometry.type = "Polygon" := by
        tauto
      exact ⟨.typeError, by simp [h1, h2, hc]⟩
  · have h1 : f.geometry.type ≠ "LineString" := by
      rcases ht with ht | ht <;> simp [ht]
    simp only [h1, ht, hc, if_true, if_false]
    exact sumLineLengths_undefined L lines hmem

theorem typeLength_filter_empty (c : Feature → ℤ) (fs : List Feature) (t : String) :
    typeLength (fun f => if emptyCoordinates f = true then 0 else c f) fs t
      = typeLength c (fs.filter (fun f => !emptyCoordinates f)) t := by
  induction fs with
  | nil => rfl
  | cons f rest ih =>
    rw [typeLength_cons, ih]
    by_cases he : emptyCoordinates f = true
    · simp [List.filter_cons, he]
    · simp [List.filter_cons, he, typeLength_cons]

theorem toDouble_ofNat (n : ℕ) (h : n < 2 ^ 53) : toDouble (n : ℚ) = n := by
  have := toDouble_intCast (n : ℤ) (by positivity) (by exact_mod_cast h)
  simpa using this

/-! ## The examples evaluated -/

theorem toDouble_tie_odd (x : ℚ) (e f : ℤ) (he : -1022 ≤ e) (hlo : (2 : ℚ) ^ e ≤ |x|)
    (hhi : |x| < (2 : ℚ) ^ (e + 1)) (hq : x / 2 ^ (e - 52) = (f : ℚ) + 1 / 2)
    (hodd : f % 2 = 1) : toDouble x = ((f + 1 : ℤ) : ℚ) * 2 ^ (e - 52) := by
  rw [toDouble_of_binade x e he hlo hhi, hq, roundHalfEven_tie]
  have : ¬ f % 2 = 0 := by omega
  rw [if_neg this]

theorem toDouble_down (x : ℚ) (e f : ℤ) (he : -1022 ≤ e) (hlo : (2 : ℚ) ^ e ≤ |x|)
    (hhi : |x| < (2 : ℚ) ^ (e + 1)) (h1 : (f : ℚ) ≤ x / 2 ^ (e - 52))
    (h2 : x / 2 ^ (e - 52) < (f : ℚ) + 1 / 2) :
    toDouble x = (f : ℚ) * 2 ^ (e - 52) := by
  rw [toDouble_of_binade x e he hlo hhi, roundHalfEven_of_lt _ f h1 h2]

theorem segments_cons_cons (L : Leaflet) (a b : Coordinate) (rest : List Coordinate) :
    segments L (a :: b :: rest) = L.dist a b :: segments L (b :: rest) := rfl

theorem segments_single (L : Leaflet) (a : Coordinate) : segments L [a] = [] := rfl

theorem foldl_addNumber_cons (acc d : ℚ) (ds : List ℚ) :
    List.foldl addNumber acc (d :: ds) = List.foldl addNumber (toDouble (acc + d)) ds := rfl

theorem foldl_addNumber_nil (acc : ℚ) : List.foldl addNumber acc [] = acc := rfl

theorem sampleLeaflet_nonneg (a b c d : ℚ) : 0 ≤ sampleLeaflet.distance a b c d := by
  show 0 ≤ toDouble (111195 * ((c - a) ^ 2 + (d - b) ^ 2))
  exact toDouble_nonneg (by positivity)

theorem sampleLeaflet_symm (a b c d : ℚ) :
    sampleLeaflet.distance a b c d = sampleLeaflet.distance c d a b := by
  show toDouble (111195 * ((c - a) ^ 2 + (d - b) ^ 2))
    = toDouble (111195 * ((a - c) ^ 2 + (b - d) ^ 2))
  congr 1
  ring

theorem sampleLeaflet_double (a b c d : ℚ) : isDouble (sampleLeaflet.distance a b c d) := by
  show toDouble (toDouble (111195 * ((c - a) ^ 2 + (d - b) ^ 2)))
    = toDouble (111195 * ((c - a) ^ 2 + (d - b) ^ 2))
  exact toDouble_idem (by positivity)

theorem toDouble_111195 : toDouble (111195 : ℚ) = 111195 := by
  have := toDouble_ofNat 111195 (by norm_num)
  simpa using this

theorem toDouble_222390 : toDouble (222390 : ℚ) = 222390 := by
  have := toDouble_ofNat 222390 (by norm_num)
  simpa using this

theorem toDouble_444780 : toDouble (444780 : ℚ) = 444780 := by
  have := toDouble_ofNat 444780 (by norm_num)
  simpa using this

theorem sampleLeaflet_dist_of (p q : Coordinate) (v : ℚ)
    (h : 111195 * ((q.lat - p.lat) ^ 2 + (q.lon - p.lon) ^ 2) = v) :
    sampleLeaflet.dist p q = toDouble v := by
  rw [← h]
  rfl

theorem doubleSum_sample_segment : doubleSum sampleLeaflet [⟨0, 0⟩, ⟨0, 1⟩] = 111195 := by
  have h1 : sampleLeaflet.dist ⟨0, 0⟩ ⟨0, 1⟩ = toDouble 111195 :=
    sampleLeaflet_dist_of _ _ _ (by norm_num)
  rw [doubleSum, segments_cons_cons, segments_single, h1, toDouble_111195,
    foldl_addNumber_cons, foldl_addNumber_nil, zero_add, toDouble_111195]

theorem doubleSum_sampleOuter : doubleSum sampleLeaflet sampleOuter = 444780 := by
  have h1 : sampleLeaflet.dist ⟨0, 0⟩ ⟨0, 1⟩ = toDouble 111195 :=
    sampleLeaflet_dist_of _ _ _ (by norm_num)
  have h2 : sampleLeaflet.dist ⟨0, 1⟩ ⟨1, 1⟩ = toDouble 111195 :=
    sampleLeaflet_dist_of _ _ _ (by norm_num)
  have h3 : sampleLeaflet.dist ⟨1, 1⟩ ⟨0, 0⟩ = toDouble 222390 :=
    sampleLeaflet_dist_of _ _ _ (by norm_num)
  have a1 : (111195 : ℚ) + 111195 = 222390 := by norm_num
  have a2 : (222390 : ℚ) + 222390 = 444780 := by norm_num
  rw [doubleSum, sampleOuter, segments_cons_cons, segments_cons_cons, segments_cons_cons,
    segments_single, h1, h2, h3, toDouble_111195, toDouble_222390,
    foldl_addNumber_cons, foldl_addNumber_cons, foldl_addNumber_cons, foldl_addNumber_nil,
    zero_add, toDouble_111195, a1, toDouble_222390, a2, toDouble_444780]

theorem doubleSum_sampleHole : doubleSum sampleLeaflet sampleHole = 222390 := by
  have h1 : sampleLeaflet.dist ⟨0, 0⟩ ⟨0, 1⟩ = toDouble 111195 :=
    sampleLeaflet_dist_of _ _ _ (by norm_num)
  have h2 : sampleLeaflet.dist ⟨0, 1⟩ ⟨0, 0⟩ = toDouble 111195 :=
    sampleLeaflet_dist_of _ _ _ (by norm_num)
  have a1 : (111195 : ℚ) + 111195 = 222390 := by norm_num
  rw [doubleSum, sampleHole, segments_cons_cons, segments_cons_cons, segments_single,
    h1, h2, toDouble_111195, foldl_addNumber_cons, foldl_addNumber_cons,
    foldl_addNumber_nil, zero_add, toDouble_111195, a1, toDouble_222390]

theorem computeLineLength_sample_segment :
    computeLineLength sampleLeaflet [⟨0, 0⟩, ⟨0, 1⟩] = 111195 := by
  rw [computeLineLength, doubleSum_sample_segment]
  exact Math.round_intCast 111195

theorem computeLineLength_sampleOuter :
    computeLineLength sampleLeaflet sampleOuter = 444780 := by
  rw [computeLineLength, doubleSum_sampleOuter]
  exact Math.round_intCast 444780

theorem computeLineLength_sampleHole :
    computeLineLength sampleLeaflet sampleHole = 222390 := by
  rw [computeLineLength, doubleSum_sampleHole]
  exact Math.round_intCast 222390

theorem sampleContribution_spec :
    ∀ f ∈ sampleFeatures, lengthContribution sampleLeaflet f = .ok (sampleContribution f) := by
  intro f hf
  simp only [sampleFeatures, List.mem_cons, List.mem_singleton, List.not_mem_nil,
    or_false] at hf
  rcases hf with rfl | rfl | rfl
  · rw [lengthContribution_lineString, computeLineLength_sample_segment]
    rfl
  · rfl
  · rw [lengthContribution_polygon]
    simp only [List.map_cons, List.map_nil, List.sum_cons, List.sum_nil,
      computeLineLength_sampleOuter, computeLineLength_sampleHole]
    rfl

theorem sampleEmptyFeatures_spec :
    ∀ f ∈ sampleEmptyFeatures, emptyCoordinates f = false →
      lengthContribution sampleLeaflet f = .ok (sampleContribution f) := by
  intro f hf he
  simp only [sampleEmptyFeatures, List.mem_cons, List.mem_singleton, List.not_mem_nil,
    or_false] at hf
  rcases hf with rfl | rfl | rfl | rfl
  · simp [emptyCoordinates] at he
  · simp [emptyCoordinates] at he
  · simp [emptyCoordinates] at he
  · rw [lengthContribution_lineString, computeLineLength_sample_segment]
    rfl

theorem trackLeaflet_symm (a b c d : ℚ) :
    trackLeaflet.distance a b c d = trackLeaflet.distance c d a b := by
  show (if |d - b| = 1 then (4271549244348171 / 34359738368 : ℚ)
      else if |d - b| = 1 / 4 then 1910241554647825 / 68719476736
      else if |d - b| = 13 / 4 then 6549178851262901 / 17179869184 else 0)
    = (if |b - d| = 1 then (4271549244348171 / 34359738368 : ℚ)
      else if |b - d| = 1 / 4 then 1910241554647825 / 68719476736
      else if |b - d| = 13 / 4 then 6549178851262901 / 17179869184 else 0)
  rw [abs_sub_comm d b]

theorem isDouble_track1 : toDouble (4271549244348171 / 34359738368) = 4271549244348171 / 34359738368 := by
  have h := toDouble_mul_zpow 4271549244348171 (-35) (by norm_num) (by norm_num) (by norm_num)
  have e : ((4271549244348171 : ℤ) : ℚ) * 2 ^ (-35 : ℤ) = 4271549244348171 / 34359738368 := by
    norm_num
  rwa [e] at h

theorem isDouble_track2 : toDouble (1910241554647825 / 68719476736) = 1910241554647825 / 68719476736 := by
  have h := toDouble_mul_zpow 1910241554647825 (-36) (by norm_num) (by norm_num) (by norm_num)
  have e : ((1910241554647825 : ℤ) : ℚ) * 2 ^ (-36 : ℤ) = 1910241554647825 / 68719476736 := by
    norm_num
  rwa [e] at h

theorem isDouble_track3 : toDouble (6549178851262901 / 17179869184) = 6549178851262901 / 17179869184 := by
  have h := toDouble_mul_zpow 6549178851262901 (-34) (by norm_num) (by norm_num) (by norm_num)
  have e : ((6549178851262901 : ℤ) : ℚ) * 2 ^ (-34 : ℤ) = 6549178851262901 / 17179869184 := by
    norm_num
  rwa [e] at h

theorem trackLeaflet_double (a b c d : ℚ) : isDouble (trackLeaflet.distance a b c d) := by
  show toDouble (if |d - b| = 1 then (4271549244348171 / 34359738368 : ℚ)
      else if |d - b| = 1 / 4 then 1910241554647825 / 68719476736
      else if |d - b| = 13 / 4 then 6549178851262901 / 17179869184 else 0)
    = (if |d - b| = 1 then (4271549244348171 / 34359738368 : ℚ)
      else if |d - b| = 1 / 4 then 1910241554647825 / 68719476736
      else if |d - b| = 13 / 4 then 6549178851262901 / 17179869184 else 0)
  split_ifs
  · exact isDouble_track1
  · exact isDouble_track2
  · exact isDouble_track3
  · exact toDouble_zero

theorem trackLeaflet_dist_of (p q : Coordinate) :
    trackLeaflet.dist p q
      = if |q.lon - p.lon| = 1 then (4271549244348171 / 34359738368 : ℚ)
        else if |q.lon - p.lon| = 1 / 4 then 1910241554647825 / 68719476736
        else if |q.lon - p.lon| = 13 / 4 then 6549178851262901 / 17179869184 else 0 := rfl

theorem segments_sampleTrack :
    segments trackLeaflet sampleTrack
      = [4271549244348171 / 34359738368, 1910241554647825 / 68719476736,
         6549178851262901 / 17179869184] := by
  rw [sampleTrack, segments_cons_cons, segments_cons_cons, segments_cons_cons,
    segments_single, trackLeaflet_dist_of, trackLeaflet_dist_of, trackLeaflet_dist_of]
  norm_num [abs_of_pos, abs_of_neg]

theorem segments_sampleTrack_reverse :
    segments trackLeaflet sampleTrack.reverse
      = [6549178851262901 / 17179869184, 1910241554647825 / 68719476736,
         4271549244348171 / 34359738368] := by
  rw [sampleTrack]
  simp only [List.reverse_cons, List.reverse_nil, List.nil_append, List.cons_append]
  rw [segments_cons_cons, segments_cons_cons, segments_cons_cons,
    segments_single, trackLeaflet_dist_of, trackLeaflet_dist_of, trackLeaflet_dist_of]
  norm_num [abs_of_pos, abs_of_neg]

theorem toDouble_track12 :
    toDouble (4271549244348171 / 34359738368 + 1910241554647825 / 68719476736)
      = 1306667505418021 / 8589934592 := by
  rw [toDouble_tie_odd _ 17 5226670021672083 (by norm_num) (by norm_num [abs_of_pos])
    (by norm_num [abs_of_pos]) (by norm_num) (by norm_num)]
  norm_num

theorem toDouble_track_forward :
    toDouble (1306667505418021 / 8589934592 + 6549178851262901 / 17179869184)
      = 1066657 / 2 := by
  rw [toDouble_tie_odd _ 19 4581256931049471 (by norm_num) (by norm_num [abs_of_pos])
    (by norm_num [abs_of_pos]) (by norm_num) (by norm_num)]
  norm_num

theorem toDouble_track32 :
    toDouble (6549178851262901 / 17179869184 + 1910241554647825 / 68719476736)
      = 7026739239924857 / 17179869184 := by
  rw [toDouble_down _ 18 7026739239924857 (by norm_num) (by norm_num [abs_of_pos])
    (by norm_num [abs_of_pos]) (by norm_num) (by norm_num)]
  norm_num

theorem toDouble_track_backward :
    toDouble (7026739239924857 / 17179869184 + 4271549244348171 / 34359738368)
      = 4581256931049471 / 8589934592 := by
  rw [toDouble_down _ 19 4581256931049471 (by norm_num) (by norm_num [abs_of_pos])
    (by norm_num [abs_of_pos]) (by norm_num) (by norm_num)]
  norm_num

theorem doubleSum_sampleTrack : doubleSum trackLeaflet sampleTrack = 1066657 / 2 := by
  rw [doubleSum, segments_sampleTrack, foldl_addNumber_cons, foldl_addNumber_cons,
    foldl_addNumber_cons, foldl_addNumber_nil, zero_add, isDouble_track1, toDouble_track12,
    toDouble_track_forward]

theorem doubleSum_sampleTrack_reverse :
    doubleSum trackLeaflet sampleTrack.reverse = 4581256931049471 / 8589934592 := by
  rw [doubleSum, segments_sampleTrack_reverse, foldl_addNumber_cons, foldl_addNumber_cons,
    foldl_addNumber_cons, foldl_addNumber_nil, zero_add, isDouble_track3, toDouble_track32,
    toDouble_track_backward]

theorem pairSum_sampleTrack :
    pairSum trackLeaflet sampleTrack = 36650055448395771 / 68719476736 := by
  rw [pairSum, segments_sampleTrack]
  norm_num

theorem computeLineLength_sampleTrack : computeLineLength trackLeaflet sampleTrack = 533329 := by
  rw [computeLineLength, doubleSum_sampleTrack, Math.round, Int.floor_eq_iff]
  constructor <;> norm_num

theorem computeLineLength_sampleTrack_reverse :
    computeLineLength trackLeaflet sampleTrack.reverse = 533328 := by
  rw [computeLineLength, doubleSum_sampleTrack_reverse, Math.round, Int.floor_eq_iff]
  constructor <;> norm_num

theorem referenceLineLength_sampleTrack : referenceLineLength trackLeaflet sampleTrack = 533328 := by
  rw [referenceLineLength, pairSum_sampleTrack, Math.round, Int.floor_eq_iff]
  constructor <;> norm_num

theorem doubleSum_reverse_short (L : Leaflet) (cs : List Coordinate)
    (hsymm : ∀ a b c d : ℚ, L.distance a b c d = L.distance c d a b)
    (hdouble : ∀ a b c d : ℚ, isDouble (L.distance a b c d))
    (hlen : cs.length ≤ 3) : doubleSum L cs.reverse = doubleSum L cs := by
  match cs, hlen with
  | [], _ => rfl
  | [_], _ => rfl
  | [a, b], _ =>
    show toDouble (0 + L.dist b a) = toDouble (0 + L.dist a b)
    rw [Leaflet.dist, Leaflet.dist, hsymm]
  | [a, b, c], _ =>
    show toDouble (toDouble (0 + L.dist c b) + L.dist b a)
      = toDouble (toDouble (0 + L.dist a b) + L.dist b c)
    have h1 : toDouble (L.dist c b) = L.dist c b := hdouble _ _ _ _
    have h2 : toDouble (L.dist a b) = L.dist a b := hdouble _ _ _ _
    have s1 : L.dist c b = L.dist b c := hsymm _ _ _ _
    have s2 : L.dist b a = L.dist a b := hsymm _ _ _ _
    rw [zero_add, zero_add, h1, h2, s1, s2, add_comm]
  | _ :: _ :: _ :: _ :: _, h =>
    simp only [List.length_cons] at h
    omega

/-! ## The claims -/

/-- C1, amended. `generateSummary` counts exactly under every type name `t` that is not
a property name inherited from `Object.prototype`: such a `t` is a key of the result if
and only if some feature has geometry type `t`, the value stored at the key is the
number of features of that type, and no key occurs twice; three Points and two
LineStrings give `{Point: 3, LineString: 2}`. -/
theorem generateSummary_counts_exactly (fs : List Feature) (t : String)
    (ht : t ∉ objectPrototypeKeys) :
    (t ∈ Dict.keys (generateSummary ⟨fs⟩) ↔ ∃ f ∈ fs, f.geometry.type = t) ∧
    (Dict.get (generateSummary ⟨fs⟩) t
        = if typeCount fs t = 0 then none else some (CountVal.number (typeCount fs t))) ∧
    (Dict.keys (generateSummary ⟨fs⟩)).Nodup ∧
    (∀ c1 c2 c3 c4 c5 : Val,
      generateSummary ⟨[⟨⟨"Point", c1⟩⟩, ⟨⟨"Point", c2⟩⟩, ⟨⟨"Point", c3⟩⟩,
          ⟨⟨"LineString", c4⟩⟩, ⟨⟨"LineString", c5⟩⟩]⟩
        = [("Point", CountVal.number 3), ("LineString", CountVal.number 2)]) := by
  have hget := get_foldl_summary fs [] t ht none rfl
  have hget' : Dict.get (generateSummary ⟨fs⟩) t
      = if typeCount fs t = 0 then none else some (CountVal.number (typeCount fs t)) := by
    unfold generateSummary
    rw [hget]
    by_cases h : typeCount fs t = 0 <;> simp [h]
  refine ⟨?_, hget', nodup_keys_foldl_summary fs [] List.nodup_nil, ?_⟩
  · rw [Dict.mem_keys_iff, hget', ← not_iff_not, ← typeCount_eq_zero_iff]
    by_cases h : typeCount fs t = 0 <;> simp [h]
  · intro c1 c2 c3 c4 c5
    simp [generateSummary, generateSummary.step, Dict.assign, Dict.lookup, Dict.set, Dict.get,
      objectPrototypeKeys]

/-- C1, counterexample: a feature of type `constructor` leaves under that key a string,
not the count 1, and a feature of type `__proto__` leaves no key at all. -/
theorem generateSummary_inherited_name_counterexample :
    generateSummary ⟨[⟨⟨"constructor", .undefined⟩⟩]⟩ = [("constructor", CountVal.string)] ∧
    generateSummary ⟨[⟨⟨"__proto__", .undefined⟩⟩]⟩ = [] := by
  constructor <;>
    simp [generateSummary, generateSummary.step, Dict.assign, Dict.lookup, Dict.set, Dict.get,
      objectPrototypeKeys]

/-- C1, witness: the type `Polygon` in `sampleFeatures`. -/
theorem generateSummary_counts_exactly_witness :
    "Polygon" ∉ objectPrototypeKeys ∧
    ("Polygon" ∈ Dict.keys (generateSummary ⟨sampleFeatures⟩)
      ↔ ∃ f ∈ sampleFeatures, f.geometry.type = "Polygon") ∧
    Dict.get (generateSummary ⟨sampleFeatures⟩) "Polygon"
      = if typeCount sampleFeatures "Polygon" = 0 then none
        else some (CountVal.number (typeCount sampleFeatures "Polygon")) :=
  ⟨by decide,
    (generateSummary_counts_exactly sampleFeatures "Polygon" (by decide)).1,
    (generateSummary_counts_exactly sampleFeatures "Polygon" (by decide)).2.1⟩

/-- C3, amended. On every coordinate sequence `calculateLineLength` returns the
rounding of the distances between consecutive points added one after the other in index
order, each addition rounded to a double; the rounding `Math.round` yields an integer
no farther from its argument than any other integer.  When no addition rounds (every
partial sum is a double) the result is the rounding of the exact sum.  The result is 0
for the empty sequence and for a single point, and the rounded distance between `p` and
`q` for the sequence `[p, q]`. -/
theorem calculateLineLength_eq_double_sum (L : Leaflet) (cs : List Coordinate) :
    calculateLineLength L (lineVal cs) = .ok (computeLineLength L cs) ∧
    computeLineLength L cs
      = Math.round ((List.zipWith L.dist cs cs.tail).foldl addNumber 0) ∧
    (∀ (x : ℚ) (n : ℤ), |((Math.round x : ℤ) : ℚ) - x| ≤ |(n : ℚ) - x|) ∧
    ((∀ k, k < (segments L cs).length → isDouble (((segments L cs).take (k + 1)).sum)) →
      calculateLineLength L (lineVal cs)
        = .ok (Math.round (List.zipWith L.dist cs cs.tail).sum)) ∧
    calculateLineLength L (lineVal []) = .ok 0 ∧
    (∀ p : Coordinate, calculateLineLength L (lineVal [p]) = .ok 0) ∧
    (∀ p q : Coordinate, isDouble (L.dist p q) →
      calculateLineLength L (lineVal [p, q]) = .ok (Math.round (L.dist p q))) := by
  refine ⟨calculateLineLength_lineVal L cs, rfl, Math.round_nearest, ?_, ?_, ?_, ?_⟩
  · intro h
    rw [calculateLineLength_lineVal, computeLineLength, doubleSum,
      foldl_addNumber_exact _ 0 (by simpa using h), zero_add]
    rfl
  · rw [calculateLineLength_lineVal]
    simp [computeLineLength, doubleSum, segments, Math.round_zero]
  · intro p
    rw [calculateLineLength_lineVal]
    simp [computeLineLength, doubleSum, segments, Math.round_zero]
  · intro p q hd
    rw [calculateLineLength_lineVal, computeLineLength, doubleSum, segments_cons_cons,
      segments_single, foldl_addNumber_cons, foldl_addNumber_nil, zero_add, hd]

/-- C3, counterexample: on `sampleTrack` the additions in doubles give 533328.5 and
`calculateLineLength` returns 533329, while the exact sum of the three distances is
below 533328.5 and its rounding is 533328. -/
theorem calculateLineLength_reference_counterexample :
    calculateLineLength trackLeaflet (lineVal sampleTrack) = .ok 533329 ∧
    Math.round (pairSum trackLeaflet sampleTrack) = 533328 ∧
    (∀ a b c d : ℚ, isDouble (trackLeaflet.distance a b c d)) := by
  refine ⟨?_, referenceLineLength_sampleTrack, trackLeaflet_double⟩
  rw [calculateLineLength_lineVal, computeLineLength_sampleTrack]

/-- C3, witness: the first two points of `sampleTrack` under `trackLeaflet`. -/
theorem calculateLineLength_eq_double_sum_witness :
    isDouble (trackLeaflet.dist ⟨0, 0⟩ ⟨1, 1 / 2⟩) ∧
    calculateLineLength trackLeaflet (lineVal [⟨0, 0⟩, ⟨1, 1 / 2⟩])
      = .ok (Math.round (trackLeaflet.dist ⟨0, 0⟩ ⟨1, 1 / 2⟩)) :=
  ⟨trackLeaflet_double _ _ _ _,
    (calculateLineLength_eq_double_sum trackLeaflet []).2.2.2.2.2.2 _ _
      (trackLeaflet_double _ _ _ _)⟩

/-- C6. With a non-negative pairwise distance, `calculateLineLength` returns a
non-negative number on every coordinate sequence, and appending a point never
decreases the result. -/
theorem calculateLineLength_monotone_append (L : Leaflet) (cs : List Coordinate)
    (p : Coordinate) (hnonneg : ∀ a b c d : ℚ, 0 ≤ L.distance a b c d) :
    ∃ m n : ℤ, calculateLineLength L (lineVal cs) = .ok m ∧
      calculateLineLength L (lineVal (cs ++ [p])) = .ok n ∧ 0 ≤ m ∧ m ≤ n := by
  obtain ⟨h0, hd⟩ := doubleSum_nonneg_double L hnonneg cs
  refine ⟨computeLineLength L cs, computeLineLength L (cs ++ [p]),
    calculateLineLength_lineVal L cs, calculateLineLength_lineVal L _, ?_, ?_⟩
  · have := Math.round_mono h0
    rwa [Math.round_zero] at this
  · apply Math.round_mono
    rw [doubleSum_append]
    cases cs.getLast? with
    | none => exact le_rfl
    | some l => exact le_addNumber h0 hd (hnonneg l.lat l.lon p.lat p.lon)

/-- C6, witness: a point appended to a line of two points, under `sampleLeaflet`. -/
theorem calculateLineLength_monotone_append_witness :
    (∀ a b c d : ℚ, 0 ≤ sampleLeaflet.distance a b c d) ∧
    ∃ m n : ℤ, calculateLineLength sampleLeaflet (lineVal [⟨0, 0⟩, ⟨0, 1⟩]) = .ok m ∧
      calculateLineLength sampleLeaflet (lineVal ([⟨0, 0⟩, ⟨0, 1⟩] ++ [⟨1, 1⟩])) = .ok n ∧
      0 ≤ m ∧ m ≤ n :=
  ⟨sampleLeaflet_nonneg,
    calculateLineLength_monotone_append sampleLeaflet [⟨0, 0⟩, ⟨0, 1⟩] ⟨1, 1⟩
      sampleLeaflet_nonneg⟩

/-- C7, amended. With a symmetric pairwise distance whose values are doubles,
`calculateLineLength` returns the same number on a coordinate sequence of at most three
points and on its reversal. -/
theorem calculateLineLength_reverse (L : Leaflet) (cs : List Coordinate)
    (hsymm : ∀ a b c d : ℚ, L.distance a b c d = L.distance c d a b)
    (hdouble : ∀ a b c d : ℚ, isDouble (L.distance a b c d))
    (hlen : cs.length ≤ 3) :
    ∃ n : ℤ, calculateLineLength L (lineVal cs) = .ok n ∧
      calculateLineLength L (lineVal cs.reverse) = .ok n := by
  refine ⟨computeLineLength L cs, calculateLineLength_lineVal L cs, ?_⟩
  rw [calculateLineLength_lineVal, computeLineLength, computeLineLength,
    doubleSum_reverse_short L cs hsymm hdouble hlen]

/-- C7, counterexample: under a symmetric, double-valued distance `calculateLineLength`
returns 533329 on the four points of `sampleTrack` and 533328 on their reversal. -/
theorem calculateLineLength_reverse_counterexample :
    (∀ a b c d : ℚ, trackLeaflet.distance a b c d = trackLeaflet.distance c d a b) ∧
    calculateLineLength trackLeaflet (lineVal sampleTrack) = .ok 533329 ∧
    calculateLineLength trackLeaflet (lineVal sampleTrack.reverse) = .ok 533328 := by
  refine ⟨trackLeaflet_symm, ?_, ?_⟩
  · rw [calculateLineLength_lineVal, computeLineLength_sampleTrack]
  · rw [calculateLineLength_lineVal, computeLineLength_sampleTrack_reverse]

/-- C7, witness: the first three points of `sampleTrack` under `trackLeaflet`. -/
theorem calculateLineLength_reverse_witness :
    (∀ a b c d : ℚ, trackLeaflet.distance a b c d = trackLeaflet.distance c d a b) ∧
    (∀ a b c d : ℚ, isDouble (trackLeaflet.distance a b c d)) ∧
    ([⟨0, 0⟩, ⟨1, 1 / 2⟩, ⟨3 / 4, 1 / 2⟩] : List Coordinate).length ≤ 3 ∧
    ∃ n : ℤ,
      calculateLineLength trackLeaflet (lineVal [⟨0, 0⟩, ⟨1, 1 / 2⟩, ⟨3 / 4, 1 / 2⟩]) = .ok n ∧
      calculateLineLength trackLeaflet
        (lineVal ([⟨0, 0⟩, ⟨1, 1 / 2⟩, ⟨3 / 4, 1 / 2⟩] : List Coordinate).reverse) = .ok n :=
  ⟨trackLeaflet_symm, trackLeaflet_double, by decide,
    calculateLineLength_reverse trackLeaflet _ trackLeaflet_symm trackLeaflet_double
      (by decide)⟩

/-- C2, amended. The total length of `generateDetailedData` is a per-type sum: when every
feature's contribution is computed (to `c f`), the function returns and, for every type
`t` present that is not a property name inherited from `Object.prototype`,
`totalLength[t]` is the sum of the contributions of the features of type `t`.  A
LineString contributes `calculateLineLength(coordinates)`, a MultiLineString or a
Polygon the sum of `calculateLineLength(line)` over every element of `coordinates`
(all lines, all rings), each line rounded on its own.  A single LineString
`[[0,0],[0,1]]` gives `{LineString: {count: 1, totalLength: 111195}}` as soon as the
distance for one degree of latitude, a double, rounds to 111195. -/
theorem generateDetailedData_totalLength (L : Leaflet) (fs : List Feature) (c : Feature → ℤ)
    (hc : ∀ f ∈ fs, lengthContribution L f = .ok (c f)) :
    (∃ details, generateDetailedData L ⟨fs⟩ = .ok details ∧
      ∀ t, t ∉ objectPrototypeKeys → (∃ f ∈ fs, f.geometry.type = t) →
        ∃ e, Dict.get details t = some e ∧ e.totalLength = typeLength c fs t) ∧
    (∀ cs, lengthContribution L ⟨⟨"LineString", lineVal cs⟩⟩
      = .ok (computeLineLength L cs)) ∧
    (∀ ls, lengthContribution L ⟨⟨"MultiLineString", linesVal ls⟩⟩
      = .ok (ls.map (computeLineLength L)).sum) ∧
    (∀ rings, lengthContribution L ⟨⟨"Polygon", linesVal rings⟩⟩
      = .ok (rings.map (computeLineLength L)).sum) ∧
    (isDouble (L.distance 0 0 1 0) → Math.round (L.distance 0 0 1 0) = 111195 →
      generateDetailedData L ⟨[⟨⟨"LineString", lineVal [⟨0, 0⟩, ⟨0, 1⟩]⟩⟩]⟩
        = .ok [("LineString", ⟨1, 111195⟩)]) := by
  refine ⟨⟨_, generateDetailedData_ok L fs c hc, ?_⟩, lengthContribution_lineString L,
    lengthContribution_multiLineString L, lengthContribution_polygon L, ?_⟩
  · intro t hi ht
    exact ⟨_, get_recordAll_nil c fs t hi ht, rfl⟩
  · intro hdbl hd
    have hlen : computeLineLength L [⟨0, 0⟩, ⟨0, 1⟩] = 111195 := by
      rw [computeLineLength, doubleSum, segments_cons_cons, segments_single,
        foldl_addNumber_cons, foldl_addNumber_nil, zero_add]
      show Math.round (toDouble (L.distance 0 0 1 0)) = 111195
      rw [hdbl, hd]
    have := generateDetailedData_append_one L [] (fun _ => 0) (by simp) _ _
      (lengthContribution_lineString L [⟨0, 0⟩, ⟨0, 1⟩])
    rw [hlen] at this
    simpa [recordAll, record, Dict.lookup, Dict.get, Dict.set, objectPrototypeKeys] using this

/-- C2, counterexample: a collection with a feature of type `constructor` has that type
present, and the result has no entry, hence no `totalLength`, under it. -/
theorem generateDetailedData_totalLength_counterexample :
    ∃ details,
      generateDetailedData sampleLeaflet
          ⟨[⟨⟨"LineString", lineVal [⟨0, 0⟩, ⟨0, 1⟩]⟩⟩, ⟨⟨"constructor", .undefined⟩⟩]⟩
        = .ok details ∧
      details = [("LineString", ⟨1, 111195⟩)] ∧ Dict.get details "constructor" = none := by
  have h := generateDetailedData_append_one sampleLeaflet
    [⟨⟨"LineString", lineVal [⟨0, 0⟩, ⟨0, 1⟩]⟩⟩] (fun _ => 111195)
    (by
      intro f hf
      rw [List.mem_singleton] at hf
      subst hf
      rw [lengthContribution_lineString, computeLineLength_sample_segment])
    ⟨⟨"constructor", .undefined⟩⟩ 0 rfl
  refine ⟨_, h, ?_, ?_⟩ <;>
    simp [recordAll, record, Dict.lookup, Dict.get, Dict.set, objectPrototypeKeys]

/-- C2, witness: `sampleFeatures` under `sampleLeaflet`. -/
theorem generateDetailedData_totalLength_witness :
    (∀ f ∈ sampleFeatures, lengthContribution sampleLeaflet f = .ok (sampleContribution f)) ∧
    ∃ details, generateDetailedData sampleLeaflet ⟨sampleFeatures⟩ = .ok details ∧
      ∀ t, t ∉ objectPrototypeKeys → (∃ f ∈ sampleFeatures, f.geometry.type = t) →
        ∃ e, Dict.get details t = some e ∧
          e.totalLength = typeLength sampleContribution sampleFeatures t :=
  ⟨sampleContribution_spec,
    (generateDetailedData_totalLength sampleLeaflet sampleFeatures sampleContribution
      sampleContribution_spec).1⟩

/-- C4, amended. Only LineString, MultiLineString and Polygon accumulate length:
whatever `coordinates` the features of the other types carry, they never make
`generateDetailedData` throw; under every type name `t` other than those three that is
not a property name inherited from `Object.prototype` the features are counted and
`totalLength[t]` is 0. -/
theorem other_types_count_only (L : Leaflet) (fs : List Feature) (c : Feature → ℤ)
    (hc : ∀ f ∈ fs, f.geometry.type ∈ lineLike → lengthContribution L f = .ok (c f)) :
    (∃ details, generateDetailedData L ⟨fs⟩ = .ok details ∧
      ∀ t, t ∉ lineLike → t ∉ objectPrototypeKeys → (∃ f ∈ fs, f.geometry.type = t) →
        ∃ e, Dict.get details t = some e ∧ e.count = typeCount fs t ∧ e.totalLength = 0) ∧
    (∀ (f : Feature) (details : Dict Entry), f.geometry.type ∉ lineLike →
      ∃ next, generateDetailedData.step L details f = .ok next ∧
        (f.geometry.type ∉ objectPrototypeKeys →
          Dict.get next f.geometry.type
            = some ⟨((Dict.get details f.geometry.type).map Entry.count).getD 0 + 1,
                ((Dict.get details f.geometry.type).map Entry.totalLength).getD 0⟩)) := by
  constructor
  · have hc' : ∀ f ∈ fs, lengthContribution L f
        = .ok ((fun f => if f.geometry.type ∈ lineLike then c f else 0) f) := by
      intro f hf
      by_cases h : f.geometry.type ∈ lineLike
      · simp only [h, if_true]
        exact hc f hf h
      · simp only [h, if_false]
        exact lengthContribution_other L f h
    refine ⟨_, generateDetailedData_ok L fs _ hc', ?_⟩
    intro t ht hi hex
    refine ⟨_, get_recordAll_nil _ fs t hi hex, rfl, ?_⟩
    apply typeLength_eq_zero_of_forall
    intro f _ hft
    simp [hft, ht]
  · intro f details hf
    refine ⟨record details f.geometry.type 0, ?_, ?_⟩
    · rw [step_eq, lengthContribution_other L f hf]
      rfl
    · intro hi
      rw [get_record _ _ _ _ hi]
      simp

/-- C4, counterexample: a feature of type `constructor` is not counted under its name:
`generateDetailedData` returns the empty object. -/
theorem other_types_inherited_name_counterexample :
    generateDetailedData sampleLeaflet ⟨[⟨⟨"constructor", .arr [.num 2, .num 3]⟩⟩]⟩
      = .ok [] ∧
    "constructor" ∉ lineLike := by
  refine ⟨?_, by decide⟩
  have h := generateDetailedData_append_one sampleLeaflet [] (fun _ => 0) (by simp)
    ⟨⟨"constructor", .arr [.num 2, .num 3]⟩⟩ 0 rfl
  simpa [recordAll, record, Dict.lookup, Dict.get, objectPrototypeKeys] using h

/-- C4, witness: `sampleFeatures` under `sampleLeaflet`. -/
theorem other_types_count_only_witness :
    (∀ f ∈ sampleFeatures, f.geometry.type ∈ lineLike →
      lengthContribution sampleLeaflet f = .ok (sampleContribution f)) ∧
    ∃ details, generateDetailedData sampleLeaflet ⟨sampleFeatures⟩ = .ok details ∧
      ∀ t, t ∉ lineLike → t ∉ objectPrototypeKeys →
        (∃ f ∈ sampleFeatures, f.geometry.type = t) →
        ∃ e, Dict.get details t = some e ∧ e.count = typeCount sampleFeatures t ∧
          e.totalLength = 0 :=
  ⟨fun f hf _ => sampleContribution_spec f hf,
    (other_types_count_only sampleLeaflet sampleFeatures sampleContribution
      (fun f hf _ => sampleContribution_spec f hf)).1⟩

/-- C5, amended. For a Polygon every ring is measured: appending a Polygon feature to
a collection adds to the Polygon `totalLength` the sum of the lengths of all its rings;
with a single ring that is the length of that ring. -/
theorem polygon_measures_every_ring (L : Leaflet) (fs : List Feature) (c : Feature → ℤ)
    (rings : List (List Coordinate))
    (hc : ∀ f ∈ fs, lengthContribution L f = .ok (c f)) :
    (∃ before after,
      generateDetailedData L ⟨fs⟩ = .ok before ∧
      generateDetailedData L ⟨fs ++ [⟨⟨"Polygon", linesVal rings⟩⟩]⟩ = .ok after ∧
      totalLengthOf after "Polygon"
        = totalLengthOf before "Polygon" + (rings.map (computeLineLength L)).sum) ∧
    (∀ ring : List Coordinate,
      generateDetailedData L ⟨[⟨⟨"Polygon", linesVal [ring]⟩⟩]⟩
        = .ok [("Polygon", ⟨1, computeLineLength L ring⟩)]) := by
  constructor
  · refine ⟨_, _, generateDetailedData_ok L fs c hc,
      generateDetailedData_append_one L fs c hc _ _ (lengthContribution_polygon L rings), ?_⟩
    exact totalLengthOf_record _ "Polygon" _ (by decide)
  · intro ring
    have := generateDetailedData_append_one L [] (fun _ => 0) (by simp) _ _
      (lengthContribution_polygon L [ring])
    simpa [recordAll, record, Dict.lookup, Dict.get, Dict.set, objectPrototypeKeys] using this

/-- C5, counterexample: a Polygon with an outer ring and a hole is reported with the
length of both rings, 667170, not with the length of its outer ring, 444780. -/
theorem polygon_outer_ring_only_counterexample :
    generateDetailedData sampleLeaflet ⟨[⟨⟨"Polygon", linesVal [sampleOuter, sampleHole]⟩⟩]⟩
      = .ok [("Polygon", ⟨1, 667170⟩)] ∧
    calculateLineLength sampleLeaflet (lineVal sampleOuter) = .ok 444780 ∧
    (667170 : ℤ) ≠ 444780 := by
  refine ⟨?_, ?_, by decide⟩
  · have := generateDetailedData_append_one sampleLeaflet [] (fun _ => 0) (by simp) _ _
      (lengthContribution_polygon sampleLeaflet [sampleOuter, sampleHole])
    simp only [List.map_cons, List.map_nil, List.sum_cons, List.sum_nil,
      computeLineLength_sampleOuter, computeLineLength_sampleHole] at this
    simpa [recordAll, record, Dict.lookup, Dict.get, Dict.set, objectPrototypeKeys] using this
  · rw [calculateLineLength_lineVal, computeLineLength_sampleOuter]

/-- C5, witness: a Polygon with a hole appended to `sampleFeatures`. -/
theorem polygon_measures_every_ring_witness :
    (∀ f ∈ sampleFeatures, lengthContribution sampleLeaflet f = .ok (sampleContribution f)) ∧
    ∃ before after,
      generateDetailedData sampleLeaflet ⟨sampleFeatures⟩ = .ok before ∧
      generateDetailedData sampleLeaflet
          ⟨sampleFeatures ++ [⟨⟨"Polygon", linesVal [sampleOuter, sampleHole]⟩⟩]⟩ = .ok after ∧
      totalLengthOf after "Polygon"
        = totalLengthOf before "Polygon"
          + ([sampleOuter, sampleHole].map (computeLineLength sampleLeaflet)).sum :=
  ⟨sampleContribution_spec,
    (polygon_measures_every_ring sampleLeaflet sampleFeatures sampleContribution
      [sampleOuter, sampleHole] sampleContribution_spec).1⟩

/-- C8, amended. Empty coordinate arrays are never fatal: a LineString with an empty
`coordinates` array, or a MultiLineString or Polygon whose lines or rings are all empty,
is counted and adds nothing to `totalLength` (the total is that of the other
features), and an empty line or ring has length 0.  A missing `coordinates` array or a
missing line or ring makes `generateDetailedData` throw. -/
theorem empty_coordinates_contribute_zero (L : Leaflet) (fs : List Feature) :
    (∀ c : Feature → ℤ,
      (∀ f ∈ fs, emptyCoordinates f = false → lengthContribution L f = .ok (c f)) →
      ∃ details, generateDetailedData L ⟨fs⟩ = .ok details ∧
        ∀ f ∈ fs, emptyCoordinates f = true →
          ∃ e, Dict.get details f.geometry.type = some e ∧
            e.count = typeCount fs f.geometry.type ∧
            e.totalLength
              = typeLength c (fs.filter (fun g => !emptyCoordinates g)) f.geometry.type) ∧
    calculateLineLength L (.arr []) = .ok 0 ∧
    (∀ f ∈ fs, missingCoordinates f → ∃ e, generateDetailedData L ⟨fs⟩ = .error e) := by
  refine ⟨?_, calculateLineLength_empty L, ?_⟩
  · intro c hc
    have hc' : ∀ f ∈ fs, lengthContribution L f
        = .ok ((fun f => if emptyCoordinates f = true then 0 else c f) f) := by
      intro f hf
      by_cases he : emptyCoordinates f = true
      · simp only [he, if_true]
        exact lengthContribution_empty L f he
      · simp only [he, if_false]
        exact hc f hf (by simpa using he)
    refine ⟨_, generateDetailedData_ok L fs _ hc', ?_⟩
    intro f hf he
    exact ⟨_, get_recordAll_nil _ fs _
      (lineLike_not_inherited (emptyCoordinates_lineLike f he)) ⟨f, hf, rfl⟩, rfl,
      typeLength_filter_empty c fs _⟩
  · intro f hf hm
    obtain ⟨e, he⟩ := lengthContribution_missing L f hm
    exact foldlM_step_error L fs [] f e hf he

/-- C8, counterexample: a LineString or a Polygon without `coordinates`, and a
MultiLineString with a missing line, make `generateDetailedData` throw a `TypeError`. -/
theorem missing_coordinates_counterexample :
    generateDetailedData sampleLeaflet ⟨[⟨⟨"LineString", .undefined⟩⟩]⟩
      = .error .typeError ∧
    generateDetailedData sampleLeaflet ⟨[⟨⟨"Polygon", .undefined⟩⟩]⟩
      = .error .typeError ∧
    generateDetailedData sampleLeaflet ⟨[⟨⟨"MultiLineString", .arr [.undefined]⟩⟩]⟩
      = .error .typeError := by
  refine ⟨?_, ?_, ?_⟩ <;>
    simp [generateDetailedData, step_eq, lengthContribution, sumLineLengths,
      calculateLineLength, Except.map, bind, Except.bind, pure, Except.pure]

/-- C8, witness: `sampleEmptyFeatures` under `sampleLeaflet`. -/
theorem empty_coordinates_contribute_zero_witness :
    (∀ f ∈ sampleEmptyFeatures, emptyCoordinates f = false →
      lengthContribution sampleLeaflet f = .ok (sampleContribution f)) ∧
    ∃ details, generateDetailedData sampleLeaflet ⟨sampleEmptyFeatures⟩ = .ok details ∧
      ∀ f ∈ sampleEmptyFeatures, emptyCoordinates f = true →
        ∃ e, Dict.get details f.geometry.type = some e ∧
          e.count = typeCount sampleEmptyFeatures f.geometry.type ∧
          e.totalLength
            = typeLength sampleContribution
                (sampleEmptyFeatures.filter (fun g => !emptyCoordinates g)) f.geometry.type :=
  ⟨sampleEmptyFeatures_spec,
    (empty_coordinates_contribute_zero sampleLeaflet sampleEmptyFeatures).1
      sampleContribution sampleEmptyFeatures_spec⟩

/-- C9, amended. The cell shows "N/A" for every total that is not positive and the
localized number otherwise: a collection without line-like types has only totals 0,
shown as "N/A", and a LineString of one point is reported with the same total 0 and
shown as "N/A" too. -/
theorem totalLengthCell_zero_is_not_applicable (toLocaleString : ℤ → String) (L : Leaflet) :
    (∀ data : Entry, data.totalLength ≤ 0 → totalLengthCell toLocaleString data = "N/A") ∧
    (∀ data : Entry, 0 < data.totalLength →
      totalLengthCell toLocaleString data = toLocaleString data.totalLength) ∧
    (∀ fs : List Feature, (∀ f ∈ fs, f.geometry.type ∉ lineLike) →
      ∃ details, generateDetailedData L ⟨fs⟩ = .ok details ∧
        ∀ t e, Dict.get details t = some e →
          e.totalLength = 0 ∧ totalLengthCell toLocaleString e = "N/A") ∧
    (∀ p : Coordinate,
      generateDetailedData L ⟨[⟨⟨"LineString", lineVal [p]⟩⟩]⟩
        = .ok [("LineString", ⟨1, 0⟩)] ∧
      totalLengthCell toLocaleString ⟨1, 0⟩ = "N/A") := by
  refine ⟨?_, ?_, ?_, ?_⟩
  · intro data h
    simp [totalLengthCell, not_lt.mpr h]
  · intro data h
    simp [totalLengthCell, h]
  · intro fs hfs
    refine ⟨_, generateDetailedData_ok L fs (fun _ => 0)
      (fun f hf => lengthContribution_other L f (hfs f hf)), ?_⟩
    intro t e hget
    have h0 : e.totalLength = 0 := by
      by_cases hi : t ∈ objectPrototypeKeys
      · rw [get_recordAll_inherited _ fs [] t hi rfl] at hget
        cases hget
      · rw [get_recordAll _ fs [] t hi] at hget
        by_cases hz : typeCount fs t = 0
        · simp [hz, Dict.get] at hget
        · simp only [hz, if_false, Option.some.injEq] at hget
          rw [← hget]
          simp [Dict.get, typeLength_eq_zero_of_forall]
    exact ⟨h0, by simp [totalLengthCell, h0]⟩
  · intro p
    constructor
    · have := generateDetailedData_append_one L [] (fun _ => 0) (by simp) _ _
        (lengthContribution_lineString L [p])
      have hz : computeLineLength L [p] = 0 := by
        rw [computeLineLength, doubleSum, segments_single, foldl_addNumber_nil]
        exact Math.round_zero
      rw [hz] at this
      simpa [recordAll, record, Dict.lookup, Dict.get, Dict.set, objectPrototypeKeys]
        using this
    · simp [totalLengthCell]

/-- C9, counterexample: a single Point and a LineString of one point are reported with
the same entry `{count: 1, totalLength: 0}`, whose cell is "N/A" in both cases. -/
theorem not_applicable_indistinct_counterexample :
    generateDetailedData sampleLeaflet ⟨[⟨⟨"Point", .arr [.num 2, .num 3]⟩⟩]⟩
      = .ok [("Point", ⟨1, 0⟩)] ∧
    generateDetailedData sampleLeaflet ⟨[⟨⟨"LineString", lineVal [⟨2, 3⟩]⟩⟩]⟩
      = .ok [("LineString", ⟨1, 0⟩)] ∧
    totalLengthCell sampleLocale ⟨1, 0⟩ = "N/A" := by
  refine ⟨?_, ?_, ?_⟩
  · have := generateDetailedData_append_one sampleLeaflet [] (fun _ => 0) (by simp)
      ⟨⟨"Point", .arr [.num 2, .num 3]⟩⟩ 0 rfl
    simpa [recordAll, record, Dict.lookup, Dict.get, Dict.set, objectPrototypeKeys] using this
  · have := generateDetailedData_append_one sampleLeaflet [] (fun _ => 0) (by simp) _ _
      (lengthContribution_lineString sampleLeaflet [⟨2, 3⟩])
    have hz : computeLineLength sampleLeaflet [⟨2, 3⟩] = 0 := by
      rw [computeLineLength, doubleSum, segments_single, foldl_addNumber_nil]
      exact Math.round_zero
    rw [hz] at this
    simpa [recordAll, record, Dict.lookup, Dict.get, Dict.set, objectPrototypeKeys] using this
  · simp [totalLengthCell]

/-- C9, witness: a Point and a MultiPoint under `sampleLeaflet`. -/
theorem totalLengthCell_zero_is_not_applicable_witness :
    (∀ f ∈ [(⟨⟨"Point", .arr [.num 2, .num 3]⟩⟩ : Feature), ⟨⟨"MultiPoint", .arr []⟩⟩],
      f.geometry.type ∉ lineLike) ∧
    ∃ details,
      generateDetailedData sampleLeaflet
          ⟨[⟨⟨"Point", .arr [.num 2, .num 3]⟩⟩, ⟨⟨"MultiPoint", .arr []⟩⟩]⟩ = .ok details ∧
        ∀ t e, Dict.get details t = some e →
          e.totalLength = 0 ∧ totalLengthCell sampleLocale e = "N/A" :=
  ⟨by simp [lineLike],
    (totalLengthCell_zero_is_not_applicable sampleLocale sampleLeaflet).2.2.1 _
      (by simp [lineLike])⟩

/-- C10, amended. The two views agree on the counts of every type name that is not a
property name inherited from `Object.prototype`: when `generateDetailedData` returns
(which it does exactly when every contribution is computed,
`generateDetailedData_ok_iff`), such a name is a key of both results or of neither and
the count under it is the summary count; when no feature has an inherited name, the
keys of the two results are the same in the same order and the counts add up to the
number of features. -/
theorem detailed_counts_agree_with_summary (L : Leaflet) (fs : List Feature)
    (hc : ∀ f ∈ fs, ∃ n, lengthContribution L f = .ok n) :
    ∃ details, generateDetailedData L ⟨fs⟩ = .ok details ∧
      (∀ t, t ∉ objectPrototypeKeys →
        (Dict.get details t).map (fun e => CountVal.number e.count)
          = Dict.get (generateSummary ⟨fs⟩) t) ∧
      ((∀ f ∈ fs, f.geometry.type ∉ objectPrototypeKeys) →
        Dict.keys details = Dict.keys (generateSummary ⟨fs⟩) ∧
        detailCounts details = generateSummary ⟨fs⟩ ∧
        ((Dict.values details).map Entry.count).sum = fs.length) := by
  choose! c hc using hc
  refine ⟨_, generateDetailedData_ok L fs c hc, ?_, ?_⟩
  · intro t ht
    unfold generateSummary
    rw [get_recordAll c fs [] t ht, get_foldl_summary fs [] t ht none rfl]
    by_cases h : typeCount fs t = 0 <;> simp [h, Dict.get]
  · intro hp
    have hagree : detailCounts (recordAll c [] fs) = generateSummary ⟨fs⟩ :=
      detailCounts_recordAll c fs [] hp
    refine ⟨?_, hagree, ?_⟩
    · rw [← hagree, keys_detailCounts]
    · have := sum_count_recordAll c fs [] hp
      simpa [Dict.values, List.map_map, Function.comp_def] using this

/-- C10, counterexample: with a feature of type `constructor` the summary has the key
`constructor` and the detailed result has no key. -/
theorem detailed_counts_keys_counterexample :
    Dict.keys (generateSummary ⟨[⟨⟨"constructor", .undefined⟩⟩]⟩) = ["constructor"] ∧
    ∃ details,
      generateDetailedData sampleLeaflet ⟨[⟨⟨"constructor", .undefined⟩⟩]⟩ = .ok details ∧
      Dict.keys details = [] := by
  constructor
  · simp [generateSummary, generateSummary.step, Dict.assign, Dict.lookup, Dict.set, Dict.get,
      Dict.keys, objectPrototypeKeys]
  · have h := generateDetailedData_append_one sampleLeaflet [] (fun _ => 0) (by simp)
      ⟨⟨"constructor", .undefined⟩⟩ 0 rfl
    refine ⟨_, h, ?_⟩
    simp [recordAll, record, Dict.lookup, Dict.get, Dict.keys, objectPrototypeKeys]

/-- C10, witness: `sampleFeatures` under `sampleLeaflet`. -/
theorem detailed_counts_agree_with_summary_witness :
    (∀ f ∈ sampleFeatures, ∃ n, lengthContribution sampleLeaflet f = .ok n) ∧
    ∃ details, generateDetailedData sampleLeaflet ⟨sampleFeatures⟩ = .ok details ∧
      (∀ t, t ∉ objectPrototypeKeys →
        (Dict.get details t).map (fun e => CountVal.number e.count)
          = Dict.get (generateSummary ⟨sampleFeatures⟩) t) ∧
      ((∀ f ∈ sampleFeatures, f.geometry.type ∉ objectPrototypeKeys) →
        Dict.keys details = Dict.keys (generateSummary ⟨sampleFeatures⟩) ∧
        detailCounts details = generateSummary ⟨sampleFeatures⟩ ∧
        ((Dict.values details).map Entry.count).sum = sampleFeatures.length) :=
  ⟨fun f hf => ⟨_, sampleContribution_spec f hf⟩,
    detailed_counts_agree_with_summary sampleLeaflet sampleFeatures
      (fun f hf => ⟨_, sampleContribution_spec f hf⟩)⟩

end KmlParser
